import Mathlib

/-!
Verification development for the indirect-prompt-injection research repository
(natural-language command router + tool-chaining pipeline).

The Python sources are shallowly embedded as executable Lean functions over
`List Char` / `String`.  Python string semantics are modelled for the ASCII
fragment actually exercised by the code (all keyword tables, URL patterns and
test inputs are ASCII): `str.lower` is ASCII lowercasing, `\s` is the ASCII
whitespace set, and `re` patterns are compiled by hand into deterministic
scanners that implement the leftmost / greedy behaviour of the concrete
patterns appearing in the sources (each scanner is documented with the exact
pattern it implements).
-/

namespace Py

/-- ASCII whitespace, the characters matched by Python's `str.strip()` and
by `\s` on the inputs considered here. -/
def isSpace (c : Char) : Bool :=
  c = ' ' ∨ c = '\t' ∨ c = '\n' ∨ c = '\r' ∨ c = Char.ofNat 11 ∨ c = Char.ofNat 12

def isDigit (c : Char) : Bool := '0' ≤ c ∧ c ≤ '9'

def isAlphaLower (c : Char) : Bool := 'a' ≤ c ∧ c ≤ 'z'

def isAlphaUpper (c : Char) : Bool := 'A' ≤ c ∧ c ≤ 'Z'

def isAlpha (c : Char) : Bool := isAlphaLower c ∨ isAlphaUpper c

def isAlnum (c : Char) : Bool := isAlpha c ∨ isDigit c

/-- Regex word character `\w` (ASCII fragment): letters, digits, underscore. -/
def isWordChar (c : Char) : Bool := isAlnum c ∨ c = '_'

/-- ASCII lowercasing of a single character (Python `str.lower`). -/
def lowerChar (c : Char) : Char :=
  if isAlphaUpper c then Char.ofNat (c.toNat + 32) else c

/-- ASCII uppercasing of a single character (Python `str.upper`). -/
def upperChar (c : Char) : Char :=
  if isAlphaLower c then Char.ofNat (c.toNat - 32) else c

def lower (l : List Char) : List Char := l.map lowerChar

def upper (l : List Char) : List Char := l.map upperChar

/-- Case-insensitive character equality (ASCII). -/
def eqCi (a b : Char) : Bool := lowerChar a = lowerChar b

/-- Case-sensitive prefix test. -/
def isPrefix : List Char → List Char → Bool
  | [], _ => true
  | _ :: _, [] => false
  | p :: ps, c :: cs => p = c && isPrefix ps cs

/-- Case-insensitive prefix test (ASCII). -/
def isPrefixCi : List Char → List Char → Bool
  | [], _ => true
  | _ :: _, [] => false
  | p :: ps, c :: cs => eqCi p c && isPrefixCi ps cs

/-- Python `sub in s` (substring containment), case-sensitive. -/
def containsSub (pat : List Char) : List Char → Bool
  | [] => pat.isEmpty
  | c :: r => isPrefix pat (c :: r) || containsSub pat r

/-- Case-insensitive substring containment. -/
def containsSubCi (pat : List Char) : List Char → Bool
  | [] => pat.isEmpty
  | c :: r => isPrefixCi pat (c :: r) || containsSubCi pat r

/-- Python `sub in s` on `String`s. -/
def strIn (sub s : String) : Bool := containsSub sub.toList s.toList

def anyIn (subs : List String) (s : String) : Bool := subs.any (fun w => strIn w s)

/-- Python `s.endswith(t)`. -/
def endsWith (pat l : List Char) : Bool := isPrefix pat.reverse l.reverse

def endsWithAny (pats : List (List Char)) (l : List Char) : Bool :=
  pats.any (fun p => endsWith p l)

/-- Strip leading characters satisfying `p` (helper for Python `strip`). -/
def dropLeading (p : Char → Bool) (l : List Char) : List Char := l.dropWhile p

/-- Strip trailing characters satisfying `p` (helper for Python `rstrip`). -/
def dropTrailing (p : Char → Bool) (l : List Char) : List Char :=
  (l.reverse.dropWhile p).reverse

/-- Python `str.strip()` (whitespace, both ends). -/
def strip (l : List Char) : List Char := dropTrailing isSpace (dropLeading isSpace l)

/-- Python `str.strip(chars)` (both ends, any of the given characters). -/
def stripSet (cs : List Char) (l : List Char) : List Char :=
  dropTrailing (fun c => cs.contains c) (dropLeading (fun c => cs.contains c) l)

/-- Python `str.rstrip(chars)`. -/
def rstripSet (cs : List Char) (l : List Char) : List Char :=
  dropTrailing (fun c => cs.contains c) l

/-- Python `str.strip()` on `String`. -/
def strStrip (s : String) : String := (strip s.toList).asString

/-- Maximal run of characters satisfying `p`: returns (run, rest). -/
def span (p : Char → Bool) (l : List Char) : List Char × List Char :=
  (l.takeWhile p, l.dropWhile p)

/-- Python `s.split(sep)` for a non-empty separator: split on every
non-overlapping occurrence, left to right. -/
def splitOnAux (sep : List Char) (fuel : Nat) (l : List Char)
    (acc : List Char) : List (List Char) :=
  match fuel with
  | 0 => [acc.reverse ++ l]
  | fuel + 1 =>
    match l with
    | [] => [acc.reverse]
    | c :: r =>
      if isPrefix sep (c :: r) then
        acc.reverse :: splitOnAux sep fuel ((c :: r).drop sep.length) []
      else
        splitOnAux sep fuel r (c :: acc)

def splitOn (sep l : List Char) : List (List Char) :=
  splitOnAux sep (l.length + 1) l []

/-- Python `s.split(sep)` on `String`s. -/
def strSplitOn (sep s : String) : List String :=
  (splitOn sep.toList s.toList).map List.asString

/-- Python `s.split()` (no argument): split on whitespace runs, no empties. -/
def splitWsAux (fuel : Nat) (l : List Char) : List (List Char) :=
  match fuel with
  | 0 => []
  | fuel + 1 =>
    match (span isSpace l).2 with
    | [] => []
    | rest =>
      let (word, rest2) := span (fun c => !isSpace c) rest
      word :: splitWsAux fuel rest2

def splitWs (l : List Char) : List (List Char) := splitWsAux (l.length + 1) l

/-- Python `s.replace(old, new)` for a non-empty `old`: replace every
non-overlapping occurrence, scanning left to right. -/
def replaceAux (old new : List Char) (fuel : Nat) (l : List Char) : List Char :=
  match fuel with
  | 0 => l
  | fuel + 1 =>
    match l with
    | [] => []
    | c :: r =>
      if isPrefix old (c :: r) && !old.isEmpty then
        new ++ replaceAux old new fuel ((c :: r).drop old.length)
      else
        c :: replaceAux old new fuel r

def replace (old new l : List Char) : List Char := replaceAux old new (l.length + 1) l

/-- Python `s.replace(old, new)` on `String`s. -/
def strReplace (old new s : String) : String :=
  (replace old.toList new.toList s.toList).asString

/-- Remove every occurrence of a literal pattern, case-insensitively
(`re.sub(pat, '', s, flags=re.I)` for a literal `pat`). -/
def removeAllCi (pat : List Char) (fuel : Nat) (l : List Char) : List Char :=
  match fuel with
  | 0 => l
  | fuel + 1 =>
    match l with
    | [] => []
    | c :: r =>
      if isPrefixCi pat (c :: r) && !pat.isEmpty then
        removeAllCi pat fuel ((c :: r).drop pat.length)
      else
        c :: removeAllCi pat fuel r

/-- First-occurrence-preserving deduplication
(Python `list(dict.fromkeys(xs))`). -/
def dedup (l : List String) : List String :=
  (l.foldl (fun acc x => if acc.contains x then acc else x :: acc) []).reverse

/-- Python `sep.join(xs)`. -/
def joinWith (sep : String) : List String → String
  | [] => ""
  | [x] => x
  | x :: xs => x ++ sep ++ joinWith sep xs

/-- Zero-padded decimal rendering (for `strftime` / `isoformat`). -/
def padNat (width n : Nat) : List Char :=
  let digits := (Nat.toDigits 10 n)
  (List.replicate (width - digits.length) '0') ++ digits

/-- Parse a run of decimal digits as a natural number. -/
def digitsToNat (l : List Char) : Nat :=
  l.foldl (fun acc c => acc * 10 + (c.toNat - '0'.toNat)) 0

end Py

namespace McpUtils

/-- `SAFE_DOMAINS` whitelist from `mcp_code/utils.py`. -/
def SAFE_DOMAINS : List String :=
  ["wikipedia.org", "en.wikipedia.org", "wikimedia.org", "github.com",
   "stackoverflow.com", "python.org", "docs.python.org", "developer.mozilla.org",
   "w3schools.com", "geeksforgeeks.org", "tutorialspoint.com", "realpython.com",
   "pythonprogramming.net", "learnpython.org", "pythonforbeginners.com",
   "pythoncentral.io", "pythonbasics.org", "python-course.eu",
   "pythonprogramminglanguage.com"]

/-- `BLOCKED_DOMAINS` blocklist from `mcp_code/utils.py`. -/
def BLOCKED_DOMAINS : List String :=
  ["malware.com", "phishing.com", "scam.com", "virus.com", "hack.com",
   "exploit.com", "crack.com", "warez.com", "torrent.com", "pirate.com"]

/-- `urllib.parse.urlparse(url).netloc` for `http://` / `https://` URLs
(the only scheme shapes produced or tested by this code base): the text
between the `//` and the next `/`, `?` or `#`.  Other inputs have an empty
netloc, as urlparse reports when no `//` authority is present. -/
def netlocOf (l : List Char) : List Char :=
  let rest :=
    if Py.isPrefix "https://".toList l then l.drop 8
    else if Py.isPrefix "http://".toList l then l.drop 7
    else []
  rest.takeWhile (fun c => !(c = '/' ∨ c = '?' ∨ c = '#'))

/-- `urlparse(url).path` for `http(s)://` URLs: from the end of the netloc up
to the next `?` or `#`. -/
def pathOf (l : List Char) : List Char :=
  let rest :=
    if Py.isPrefix "https://".toList l then l.drop 8
    else if Py.isPrefix "http://".toList l then l.drop 7
    else l
  (rest.dropWhile (fun c => !(c = '/' ∨ c = '?' ∨ c = '#'))).takeWhile
    (fun c => !(c = '?' ∨ c = '#'))

/-- One attempt of the pattern
`[0-9]{1,3}\.[0-9]{1,3}\.[0-9]{1,3}\.[0-9]{1,3}` at the head of the list. -/
def ipv4At (l : List Char) : Bool :=
  let octetDot : List Char → Option (List Char) := fun s =>
    let (run, rest) := Py.span Py.isDigit s
    if 1 ≤ run.length ∧ run.length ≤ 3 then
      match rest with
      | '.' :: r2 => some r2
      | _ => none
    else none
  match octetDot l with
  | none => false
  | some r1 =>
    match octetDot r1 with
    | none => false
    | some r2 =>
      match octetDot r2 with
      | none => false
      | some r3 => decide (1 ≤ (Py.span Py.isDigit r3).1.length)

/-- `re.search` of the IPv4-shaped pattern anywhere in the string. -/
def hasIpv4 : List Char → Bool
  | [] => false
  | c :: r => ipv4At (c :: r) || hasIpv4 r

/-- The `suspicious_patterns` checks of `is_safe_url` (`mcp_code/utils.py`),
each applied case-insensitively to the whole URL.  `$` is modelled as
end-of-string (no URL handled here contains a newline). -/
def suspiciousUrl (url : List Char) : Bool :=
  let u := Py.lower url
  Py.endsWithAny ([".exe", ".bat", ".cmd", ".com", ".scr", ".pif", ".vbs",
    ".js", ".jar", ".msi", ".dmg", ".app"].map String.toList) u ||
  Py.endsWithAny ([".onion", ".bit", ".tor"].map String.toList) u ||
  hasIpv4 u ||
  ([ "admin", "login", "wp-admin", "phpmyadmin", "cpanel", "webmail"].any
    (fun p => Py.containsSub p.toList u)) ||
  Py.endsWithAny ([".ru", ".cn", ".tk", ".ml", ".ga", ".cf", ".gq"].map
    String.toList) u

/-- `is_safe_url` from `mcp_code/utils.py`.  The `try/except` wrapper never
fires here because the embedded parsing is total. -/
def is_safe_url (url : String) : Bool :=
  let domain := (Py.lower (netlocOf url.toList)).asString
  if BLOCKED_DOMAINS.contains domain then false
  else if SAFE_DOMAINS.contains domain then true
  else if Py.strIn "wikipedia.org" domain then true
  else if domain = "localhost" ∨ domain = "127.0.0.1" ∨ domain = "0.0.0.0" then false
  else !suspiciousUrl url.toList

/-- Match of the URL pattern
`https?://(?:[-\w.])+(?:[:\d]+)?(?:/(?:[\w/_.])*(?:\?(?:[\w&=%.])*)?(?:#(?:[\w.])*)?)?`
at the head of the list; the pattern is deterministic (each quantified class
is disjoint from the character that follows it), so greedy maximal munch per
component is exact.  Returns the match and the remaining input. -/
def matchUrlAt (l : List Char) : Option (List Char × List Char) :=
  let scheme : Option (List Char × List Char) :=
    if Py.isPrefix "https://".toList l then some ("https://".toList, l.drop 8)
    else if Py.isPrefix "http://".toList l then some ("http://".toList, l.drop 7)
    else none
  match scheme with
  | none => none
  | some (sch, r0) =>
    let hostChar : Char → Bool := fun c => c = '-' ∨ Py.isWordChar c ∨ c = '.'
    let (host, r1) := Py.span hostChar r0
    if host.isEmpty then none
    else
      let portChar : Char → Bool := fun c => c = ':' ∨ Py.isDigit c
      let (port, r2) :=
        match r1 with
        | c :: _ => if portChar c then Py.span portChar r1 else ([], r1)
        | [] => ([], r1)
      let (path, r5) :=
        match r2 with
        | '/' :: pr =>
          let pathChar : Char → Bool := fun c => Py.isWordChar c ∨ c = '/' ∨ c = '.'
          let (p1, pr1) := Py.span pathChar pr
          let queryChar : Char → Bool := fun c =>
            Py.isWordChar c ∨ c = '&' ∨ c = '=' ∨ c = '%' ∨ c = '.'
          let (q, pr2) :=
            match pr1 with
            | '?' :: qr => let (qq, qrest) := Py.span queryChar qr; ('?' :: qq, qrest)
            | _ => ([], pr1)
          let fragChar : Char → Bool := fun c => Py.isWordChar c ∨ c = '.'
          let (f, pr3) :=
            match pr2 with
            | '#' :: fr => let (ff, frest) := Py.span fragChar fr; ('#' :: ff, frest)
            | _ => ([], pr2)
          ('/' :: (p1 ++ q ++ f), pr3)
        | _ => ([], r2)
      some (sch ++ host ++ port ++ path, r5)

/-- `re.findall` scanning for the URL pattern: try each position left to
right, skip past every match. -/
def findUrls (fuel : Nat) (l : List Char) : List (List Char) :=
  match fuel with
  | 0 => []
  | fuel + 1 =>
    match l with
    | [] => []
    | c :: r =>
      match matchUrlAt (c :: r) with
      | some (m, rest) => m :: findUrls fuel rest
      | none => findUrls fuel r

/-- The per-URL cleaning of `extract_urls_from_text` (`mcp_code/utils.py`):
`rstrip('.,;:!?')`, then `rstrip('"\'')`, then `rstrip(')')`. -/
def cleanUrl (l : List Char) : List Char :=
  Py.rstripSet [')'] (Py.rstripSet ['\"', Char.ofNat 39]
    (Py.rstripSet ['.', ',', ';', ':', '!', '?'] l))

/-- `extract_urls_from_text` from `mcp_code/utils.py`: regex findall, then
clean each URL and keep it iff it is non-empty and `is_safe_url` accepts it.
No deduplication is performed. -/
def extract_urls_from_text (text : String) : List String :=
  if text = "" then []
  else
    ((findUrls (text.toList.length + 1) text.toList).map
      (fun m => (cleanUrl m).asString)).filter
      (fun u => u ≠ "" && is_safe_url u)

/-- One attempt of `<script[^>]*>.*?</script>` (IGNORECASE, DOTALL) at the
head of the list: literal `<script`, a maximal run of non-`>`, a `>`, then
the lazily-nearest `</script>`.  Returns the suffix after the match. -/
def scriptTagAt (l : List Char) : Option (List Char) :=
  if Py.isPrefixCi "<script".toList l then
    let after := l.drop 7
    let (_, rest) := Py.span (fun c => c ≠ '>') after
    match rest with
    | '>' :: body =>
      let rec findClose : List Char → Option (List Char)
        | [] => none
        | c :: r =>
          if Py.isPrefixCi "</script>".toList (c :: r) then
            some ((c :: r).drop 9)
          else findClose r
      findClose body
    | _ => none
  else none

/-- `re.sub(r'<script[^>]*>.*?</script>', '', url, flags=re.I|re.S)`. -/
def removeScriptTags (fuel : Nat) (l : List Char) : List Char :=
  match fuel with
  | 0 => l
  | fuel + 1 =>
    match l with
    | [] => []
    | c :: r =>
      match scriptTagAt (c :: r) with
      | some rest => removeScriptTags fuel rest
      | none => c :: removeScriptTags fuel r

/-- `sanitize_url` from `mcp_code/utils.py`: remove script tags and the
literal `javascript:` / `data:` / `vbscript:` (case-insensitive), prepend
`https://` when the result does not start with `http://` or `https://`,
then `strip()`. -/
def sanitizeSubs (l0 : List Char) : List Char :=
  let l1 := removeScriptTags (l0.length + 1) l0
  let l2 := Py.removeAllCi "javascript:".toList (l1.length + 1) l1
  let l3 := Py.removeAllCi "data:".toList (l2.length + 1) l2
  Py.removeAllCi "vbscript:".toList (l3.length + 1) l3

def sanitize_url (url : String) : String :=
  if url = "" then ""
  else
    let l4 := sanitizeSubs url.toList
    let l5 :=
      if Py.isPrefix "http://".toList l4 || Py.isPrefix "https://".toList l4 then l4
      else "https://".toList ++ l4
    (Py.strip l5).asString

end McpUtils

namespace ApiServer

end ApiServer

namespace ImageProc

/-- `is_safe_url` from `mcp_benign_working/image_processor.py`: same blocklist
and suspicious-pattern checks as the utils variant, but with no whitelist and
no Wikipedia acceptance. -/
def is_safe_url (url : String) : Bool :=
  let domain := (Py.lower (McpUtils.netlocOf url.toList)).asString
  if McpUtils.BLOCKED_DOMAINS.contains domain then false
  else if domain = "localhost" ∨ domain = "127.0.0.1" ∨ domain = "0.0.0.0" then false
  else !McpUtils.suspiciousUrl url.toList

/-- The alternatives of the image-extension alternation
`(jpg|jpeg|png|gif|bmp|webp|svg|ico)`, in source order. -/
def extAlts : List String :=
  ["jpg", "jpeg", "png", "gif", "bmp", "webp", "svg", "ico"]

/-- The image-extension alternation, tried in source order,
case-insensitively.  Returns the matched text and the remaining input. -/
def extAltAt (l : List Char) : Option (List Char × List Char) :=
  extAlts.foldl (fun acc a =>
    match acc with
    | some r => some r
    | none =>
      if Py.isPrefixCi a.toList l then some (l.take a.length, l.drop a.length)
      else none) none

/-- Character class `[^\s<>"]`. -/
def imgUrlChar (c : Char) : Bool :=
  !(Py.isSpace c ∨ c = '<' ∨ c = '>' ∨ c = Char.ofNat 34)

/-- `https?://` matched case-insensitively (`re.IGNORECASE`); returns the
matched scheme text and the rest. -/
def schemeCiAt (l : List Char) : Option (List Char × List Char) :=
  if Py.isPrefixCi "https://".toList l then some (l.take 8, l.drop 8)
  else if Py.isPrefixCi "http://".toList l then some (l.take 7, l.drop 7)
  else none

/-- A findall element of `extract_images_from_text`: patterns 1–2 have two
capture groups, so `re.findall` yields a pair; patterns 3–5 have none and
yield the full match (Python returns tuples resp. strings, and the cleaning
loop checks `isinstance(img_url, tuple)`). -/
inductive ImgMatch where
  | tup (g1 g2 : List Char) : ImgMatch
  | whole (m : List Char) : ImgMatch
deriving DecidableEq

/-- The backtracking split search of the extension patterns: the greedy `+`
gives the dot at index `k` of the class run (descending, `k` at least 1);
match the extension alternation after it, then the optional `optChar`-led
group.  Returns the two captured groups and the suffix after the match. -/
def extTryK (optChar : Char) (r0 run : List Char) : Nat → Option (ImgMatch × List Char)
  | 0 => none
  | k + 1 =>
    if h : k + 1 < run.length then
      if run.get ⟨k + 1, h⟩ = '.' then
        match extAltAt (run.drop (k + 2)) with
        | some (ext, _) =>
          let afterExt := r0.drop (k + 2 + ext.length)
          let (g2, rest) :=
            match afterExt with
            | c :: qr =>
              if c = optChar then
                let (qq, qrest) := Py.span imgUrlChar qr
                (c :: qq, qrest)
              else ([], afterExt)
            | [] => ([], afterExt)
          some (ImgMatch.tup ext g2, rest)
        | none => extTryK optChar r0 run k
      else extTryK optChar r0 run k
    else extTryK optChar r0 run k

/-- One attempt of the extension image pattern (IGNORECASE): `https?://`,
the `[^\s<>"]` class run, then the backtracked extension split of
`extTryK`. -/
def extPatternAt (optChar : Char) (l : List Char) : Option (ImgMatch × List Char) :=
  match schemeCiAt l with
  | none => none
  | some (_, r0) =>
    let run := (Py.span imgUrlChar r0).1
    if run.isEmpty then none else extTryK optChar r0 run run.length

/-- One attempt of `https?://[^\s<>"]+/SEG[^\s<>"]*` (IGNORECASE) for a
literal segment such as `/image`: the segment must occur in the class run at
an index ≥ 1 (the `+` needs one character first); the trailing `*` then
swallows the rest of the run, so the match is the scheme plus the whole run. -/
def segPatternAt (seg : List Char) (l : List Char) : Option (ImgMatch × List Char) :=
  match schemeCiAt l with
  | none => none
  | some (sch, r0) =>
    let (run, rest) := Py.span imgUrlChar r0
    match run with
    | [] => none
    | _ :: tail =>
      if Py.containsSubCi seg tail then some (ImgMatch.whole (sch ++ run), rest)
      else none

/-- `re.findall` driver over one of the image patterns. -/
def findAllImg (att : List Char → Option (ImgMatch × List Char)) (fuel : Nat)
    (l : List Char) : List ImgMatch :=
  match fuel with
  | 0 => []
  | fuel + 1 =>
    match l with
    | [] => []
    | c :: r =>
      match att (c :: r) with
      | some (m, rest) => m :: findAllImg att fuel rest
      | none => findAllImg att fuel r

/-- `extract_images_from_text` from `mcp_benign_working/image_processor.py`:
run the five patterns, take group 0 of tuple results, clean, filter by the
image-processor `is_safe_url`, and de-duplicate via `list(set(...))`
(set iteration order is implementation-defined in Python; the embedding
fixes first-occurrence order). -/
def extract_images_from_text (text : String) : List String :=
  if text = "" then []
  else
    let l := text.toList
    let fuel := l.length + 1
    let allImages :=
      findAllImg (extPatternAt '?') fuel l ++
      findAllImg (extPatternAt '#') fuel l ++
      findAllImg (segPatternAt "/image".toList) fuel l ++
      findAllImg (segPatternAt "/img".toList) fuel l ++
      findAllImg (segPatternAt "/photo".toList) fuel l
    let cleaned := allImages.filterMap (fun m =>
      let raw := match m with
        | ImgMatch.tup g1 _ => g1
        | ImgMatch.whole w => w
      let u := (McpUtils.cleanUrl raw).asString
      if u ≠ "" && is_safe_url u then some u else none)
    Py.dedup cleaned

end ImageProc

namespace MainMod

/-- A Python `datetime.datetime` with microsecond dropped (the code always
zeroes it) and time zone reduced to an awareness flag (the code only ever
produces UTC / `+00:00` offsets). -/
structure PyDateTime where
  year : Nat
  month : Nat
  day : Nat
  hour : Nat
  minute : Nat
  second : Nat
  tzAware : Bool
deriving DecidableEq, Repr

/-- Days since 1970-01-01 of a proleptic Gregorian civil date
(Hinnant's `days_from_civil`). -/
def daysFromCivil (y m d : Int) : Int :=
  let y2 := y - (if m ≤ 2 then 1 else 0)
  let era := y2.fdiv 400
  let yoe := y2 - era * 400
  let mp := (m + 9).emod 12
  let doy := (153 * mp + 2).fdiv 5 + d - 1
  let doe := yoe * 365 + yoe.fdiv 4 - yoe.fdiv 100 + doy
  era * 146097 + doe - 719468

/-- Civil date from days since 1970-01-01 (Hinnant's `civil_from_days`). -/
def civilFromDays (z : Int) : Int × Int × Int :=
  let z2 := z + 719468
  let era := z2.fdiv 146097
  let doe := z2 - era * 146097
  let yoe := (doe - doe.fdiv 1460 + doe.fdiv 36524 - doe.fdiv 146096).fdiv 365
  let y := yoe + era * 400
  let doy := doe - (365 * yoe + yoe.fdiv 4 - yoe.fdiv 100)
  let mp := (5 * doy + 2).fdiv 153
  let d := doy - (153 * mp + 2).fdiv 5 + 1
  let m := mp + (if mp < 10 then 3 else -9)
  (y + (if m ≤ 2 then 1 else 0), m, d)

/-- `t + datetime.timedelta(minutes=delta)`.  When the result stays within
the same day only the time fields change; otherwise the date is renormalized
through the civil-day conversion. -/
def addMinutesI (t : PyDateTime) (delta : Int) : PyDateTime :=
  let tot : Int := (t.hour : Int) * 60 + t.minute + delta
  if 0 ≤ tot ∧ tot < 1440 then
    { t with hour := tot.toNat / 60, minute := tot.toNat % 60 }
  else
    let days := daysFromCivil t.year t.month t.day + tot.fdiv 1440
    let rem := (tot.emod 1440).toNat
    match civilFromDays days with
    | (y, m, d) =>
      PyDateTime.mk y.toNat m.toNat d.toNat (rem / 60) (rem % 60) t.second t.tzAware

/-- `t + datetime.timedelta(days=delta)`. -/
def addDaysI (t : PyDateTime) (delta : Int) : PyDateTime :=
  addMinutesI t (delta * 1440)

/-- `t.replace(hour=h, minute=m, second=0, microsecond=0)`. -/
def replaceTime (t : PyDateTime) (h m : Nat) : PyDateTime :=
  { t with hour := h, minute := m, second := 0 }

/-- Leap year test (`calendar.isleap` / `datetime` validity rules). -/
def isLeap (y : Nat) : Bool := (y % 4 = 0 ∧ y % 100 ≠ 0) ∨ y % 400 = 0

def daysInMonth (y m : Nat) : Nat :=
  if m = 2 then (if isLeap y then 29 else 28)
  else if m = 4 ∨ m = 6 ∨ m = 9 ∨ m = 11 then 30
  else 31

/-- Whether `datetime.datetime(y, m, d)` succeeds (no `ValueError`). -/
def isValidDate (y m d : Nat) : Bool :=
  1 ≤ y ∧ y ≤ 9999 ∧ 1 ≤ m ∧ m ≤ 12 ∧ 1 ≤ d ∧ d ≤ daysInMonth y m

/-- `date.strftime('%Y-%m-%d')`. -/
def fmtDate (y m d : Nat) : String :=
  (Py.padNat 4 y ++ '-' :: Py.padNat 2 m ++ '-' :: Py.padNat 2 d).asString

/-- `f"{hour:02d}:{minute:02d}"`. -/
def fmtTime (h m : Nat) : String :=
  (Py.padNat 2 h ++ ':' :: Py.padNat 2 m).asString

/-- `datetime.isoformat()` (tz-aware values only ever carry `+00:00` here). -/
def isoFormat (t : PyDateTime) : String :=
  (Py.padNat 4 t.year ++ '-' :: Py.padNat 2 t.month ++ '-' :: Py.padNat 2 t.day ++
   'T' :: Py.padNat 2 t.hour ++ ':' :: Py.padNat 2 t.minute ++
   ':' :: Py.padNat 2 t.second ++
   (if t.tzAware then "+00:00".toList else [])).asString

/-- `datetime.fromisoformat` for the shapes this code produces:
`YYYY-MM-DD[THH:MM[:SS]][±HH:MM]`; an offset makes the value tz-aware
(offsets are normalized to UTC awareness). -/
def parseIsoDT (s : String) : Option PyDateTime :=
  let fixedNat : Nat → List Char → Option (Nat × List Char) := fun w l =>
    let ds := l.take w
    if ds.length = w ∧ ds.all Py.isDigit then some (Py.digitsToNat ds, l.drop w)
    else none
  let l := s.toList
  match fixedNat 4 l with
  | none => none
  | some (y, r1) =>
    match r1 with
    | '-' :: r2 =>
      match fixedNat 2 r2 with
      | none => none
      | some (mo, r3) =>
        match r3 with
        | '-' :: r4 =>
          match fixedNat 2 r4 with
          | none => none
          | some (d, r5) =>
            if !isValidDate y mo d then none
            else
              match r5 with
              | [] => some ⟨y, mo, d, 0, 0, 0, false⟩
              | 'T' :: r6 =>
                match fixedNat 2 r6 with
                | none => none
                | some (hh, r7) =>
                  match r7 with
                  | ':' :: r8 =>
                    match fixedNat 2 r8 with
                    | none => none
                    | some (mi, r9) =>
                      let (ss, r10) :=
                        match r9 with
                        | ':' :: r9b =>
                          match fixedNat 2 r9b with
                          | some (sv, rr) => (sv, rr)
                          | none => (0, ':' :: r9b)
                        | _ => (0, r9)
                      if hh ≤ 23 ∧ mi ≤ 59 ∧ ss ≤ 59 then
                        match r10 with
                        | [] => some ⟨y, mo, d, hh, mi, ss, false⟩
                        | c :: rest =>
                          if (c = '+' ∨ c = '-') ∧ rest.length = 5 then
                            some ⟨y, mo, d, hh, mi, ss, true⟩
                          else none
                      else none
                  | _ => none
              | _ => none
        | _ => none
    | _ => none

end MainMod

namespace MainMod

/-- `\b` immediately before a word character: previous character absent or
not a word character. -/
def bdryBeforeWord (prev : Option Char) : Bool :=
  match prev with
  | none => true
  | some p => !Py.isWordChar p

/-- `\b` immediately after a word character: next character absent or not a
word character. -/
def bdryAfterWord (next : Option Char) : Bool :=
  match next with
  | none => true
  | some c => !Py.isWordChar c

/-- `\b` between a last matched character and the following character. -/
def boundaryBetween (last : Char) (next : Option Char) : Bool :=
  if Py.isWordChar last then bdryAfterWord next
  else
    match next with
    | some c => Py.isWordChar c
    | none => false

/-- Leftmost-first scanning: try the match attempt at every position, with
the previous character available for `\b` tests. -/
def findWithPrev (att : Option Char → List Char → Option α) :
    Option Char → List Char → Option α
  | _, [] => none
  | prev, c :: r =>
    match att prev (c :: r) with
    | some x => some x
    | none => findWithPrev att (some c) r

/-- `int(s)` on a regex capture: defined exactly when the capture is a
non-empty digit string (month names make it raise `ValueError`). -/
def intOpt (l : List Char) : Option Nat :=
  if l.isEmpty ∨ !l.all Py.isDigit then none else some (Py.digitsToNat l)

/-- `s.isdigit()` for ASCII captures. -/
def isdigit (l : List Char) : Bool := !l.isEmpty && l.all Py.isDigit

/-- Attempt of `\b(\d{4})-(\d{1,2})-(\d{1,2})\b` at the head. -/
def dateP1At (prev : Option Char) (l : List Char) :
    Option (List Char × List Char × List Char) :=
  if !bdryBeforeWord prev then none
  else
    let (r1, a1) := Py.span Py.isDigit l
    if r1.length ≠ 4 then none
    else
      match a1 with
      | '-' :: a2 =>
        let (r2, a3) := Py.span Py.isDigit a2
        if !(1 ≤ r2.length ∧ r2.length ≤ 2) then none
        else
          match a3 with
          | '-' :: a4 =>
            let (r3, a5) := Py.span Py.isDigit a4
            if 1 ≤ r3.length ∧ r3.length ≤ 2 ∧ bdryAfterWord a5.head? then
              some (r1, r2, r3)
            else none
          | _ => none
      | _ => none

/-- Attempt of the slash-or-dash date pattern `(\d{1,2})(\d{1,2})(\d{2,4})` with word
boundaries, where each group pair is separated by a `/` or `-`. -/
def dateP2At (prev : Option Char) (l : List Char) :
    Option (List Char × List Char × List Char) :=
  if !bdryBeforeWord prev then none
  else
    let (r1, a1) := Py.span Py.isDigit l
    if !(1 ≤ r1.length ∧ r1.length ≤ 2) then none
    else
      match a1 with
      | s1 :: a2 =>
        if !(s1 = '/' ∨ s1 = '-') then none
        else
          let (r2, a3) := Py.span Py.isDigit a2
          if !(1 ≤ r2.length ∧ r2.length ≤ 2) then none
          else
            match a3 with
            | s2 :: a4 =>
              if !(s2 = '/' ∨ s2 = '-') then none
              else
                let (r3, a5) := Py.span Py.isDigit a4
                if 2 ≤ r3.length ∧ r3.length ≤ 4 ∧ bdryAfterWord a5.head? then
                  some (r1, r2, r3)
                else none
            | _ => none
      | _ => none

/-- Attempt of the slash-or-dash date pattern `(\d{4})(\d{1,2})(\d{1,2})` with word
boundaries, where each group pair is separated by a `/` or `-`. -/
def dateP3At (prev : Option Char) (l : List Char) :
    Option (List Char × List Char × List Char) :=
  if !bdryBeforeWord prev then none
  else
    let (r1, a1) := Py.span Py.isDigit l
    if r1.length ≠ 4 then none
    else
      match a1 with
      | s1 :: a2 =>
        if !(s1 = '/' ∨ s1 = '-') then none
        else
          let (r2, a3) := Py.span Py.isDigit a2
          if !(1 ≤ r2.length ∧ r2.length ≤ 2) then none
          else
            match a3 with
            | s2 :: a4 =>
              if !(s2 = '/' ∨ s2 = '-') then none
              else
                let (r3, a5) := Py.span Py.isDigit a4
                if 1 ≤ r3.length ∧ r3.length ≤ 2 ∧ bdryAfterWord a5.head? then
                  some (r1, r2, r3)
                else none
            | _ => none
      | _ => none

def monthsFull : List String :=
  ["January", "February", "March", "April", "May", "June", "July", "August",
   "September", "October", "November", "December"]

def monthsAbbr : List String :=
  ["Jan", "Feb", "Mar", "Apr", "May", "Jun", "Jul", "Aug", "Sep", "Oct",
   "Nov", "Dec"]

/-- Case-insensitive alternation over literal words, in source order;
returns the matched text and the rest. -/
def altCiAt (alts : List String) (l : List Char) : Option (List Char × List Char) :=
  alts.foldl (fun acc a =>
    match acc with
    | some r => some r
    | none =>
      if Py.isPrefixCi a.toList l then some (l.take a.length, l.drop a.length)
      else none) none

/-- `,?\s+` after the day group of the month-name date patterns: an optional
comma, then mandatory whitespace (with the comma given back if no whitespace
follows it). -/
def commaWs (l : List Char) : Option (List Char) :=
  match l with
  | ',' :: r =>
    let (sp, rest) := Py.span Py.isSpace r
    if sp.isEmpty then none else some rest
  | _ =>
    let (sp, rest) := Py.span Py.isSpace l
    if sp.isEmpty then none else some rest

/-- Attempt of `\b(Month…)\s+(\d{1,2}),?\s+(\d{4})\b` at the head
(IGNORECASE), for a given month-name alternation. -/
def dateMonthFirstAt (months : List String) (prev : Option Char)
    (l : List Char) : Option (List Char × List Char × List Char) :=
  if !bdryBeforeWord prev then none
  else
    match altCiAt months l with
    | none => none
    | some (name, a1) =>
      let (sp1, a2) := Py.span Py.isSpace a1
      if sp1.isEmpty then none
      else
        let (day, a3) := Py.span Py.isDigit a2
        if !(1 ≤ day.length ∧ day.length ≤ 2) then none
        else
          match commaWs a3 with
          | none => none
          | some a4 =>
            let (yr, a5) := Py.span Py.isDigit a4
            if yr.length = 4 ∧ bdryAfterWord a5.head? then some (name, day, yr)
            else none

/-- Attempt of `\b(today|tomorrow|yesterday)\b` (IGNORECASE) at the head. -/
def dateRelAt (prev : Option Char) (l : List Char) : Option (List Char) :=
  if !bdryBeforeWord prev then none
  else
    match altCiAt ["today", "tomorrow", "yesterday"] l with
    | none => none
    | some (w, rest) => if bdryAfterWord rest.head? then some w else none

/-- Attempt of `\b(\d{1,2})\s+(Month)\s+(\d{4})\b` at the head (IGNORECASE),
full month names. -/
def dateDayFirstAt (prev : Option Char) (l : List Char) :
    Option (List Char × List Char × List Char) :=
  if !bdryBeforeWord prev then none
  else
    let (day, a1) := Py.span Py.isDigit l
    if !(1 ≤ day.length ∧ day.length ≤ 2) then none
    else
      let (sp1, a2) := Py.span Py.isSpace a1
      if sp1.isEmpty then none
      else
        match altCiAt monthsFull a2 with
        | none => none
        | some (name, a3) =>
          let (sp2, a4) := Py.span Py.isSpace a3
          if sp2.isEmpty then none
          else
            let (yr, a5) := Py.span Py.isDigit a4
            if yr.length = 4 ∧ bdryAfterWord a5.head? then some (day, name, yr)
            else none

def monthMap : List (String × Nat) :=
  [("january", 1), ("jan", 1), ("february", 2), ("feb", 2), ("march", 3),
   ("mar", 3), ("april", 4), ("apr", 4), ("may", 5), ("june", 6), ("jun", 6),
   ("july", 7), ("jul", 7), ("august", 8), ("aug", 8), ("september", 9),
   ("sep", 9), ("october", 10), ("oct", 10), ("november", 11), ("nov", 11),
   ("december", 12), ("dec", 12)]

/-- The shared three-group processing of `extract_date_from_text`:
the numeric branch (only when the third capture has four characters; any
`int()` failure or invalid date is a `ValueError` → `continue`), otherwise
the month-name branch keyed on the second capture.  `none` means the loop
moves on to the next pattern. -/
def dateTripleBranch (g1 g2 g3 : List Char) : Option String :=
  if g3.length = 4 then
    match intOpt g3, intOpt g1, intOpt g2 with
    | some year, some month, some day =>
      let p := if month > 12 ∧ day ≤ 12 then (day, month) else (month, day)
      if isValidDate year p.1 p.2 then some (fmtDate year p.1 p.2) else none
    | _, _, _ => none
  else
    let monthName := (Py.lower g2).asString
    if monthsAbbr.any (fun m => Py.strIn ((Py.lower m.toList).asString) monthName) then
      match (monthMap.find? (fun e => e.1 = monthName)), intOpt g3, intOpt g1 with
      | some e, some year, some day =>
        if isValidDate year e.2 day then some (fmtDate year e.2 day) else none
      | _, _, _ => none
    else none

/-- The relative-date branch of `extract_date_from_text` (`today` /
`tomorrow` / `yesterday`, relative to `datetime.now()`). -/
def dateRelBranch (now : PyDateTime) (w : List Char) : Option String :=
  let wl := (Py.lower w).asString
  if wl = "today" then some (fmtDate now.year now.month now.day)
  else if wl = "tomorrow" then
    let t := addDaysI now 1
    some (fmtDate t.year t.month t.day)
  else if wl = "yesterday" then
    let t := addDaysI now (-1)
    some (fmtDate t.year t.month t.day)
  else none

/-- `extract_date_from_text` from `mcp_benign_working/main.py`: the ordered
regex cascade; for each pattern, only the first match is examined, and a
branch that raises falls through to the next pattern. -/
def extract_date_from_text (now : PyDateTime) (text : String) : Option String :=
  let l := text.toList
  let tryTriple := fun att =>
    match findWithPrev att none l with
    | some (g1, g2, g3) => dateTripleBranch g1 g2 g3
    | none => none
  (tryTriple dateP1At).orElse fun _ =>
  (tryTriple dateP2At).orElse fun _ =>
  (tryTriple dateP3At).orElse fun _ =>
  (tryTriple (dateMonthFirstAt monthsFull)).orElse fun _ =>
  (tryTriple (dateMonthFirstAt monthsAbbr)).orElse fun _ =>
  (match findWithPrev dateRelAt none l with
   | some w => dateRelBranch now w
   | none => none).orElse fun _ =>
  tryTriple dateDayFirstAt

end MainMod

namespace MainMod

/-- The `(AM|PM|am|pm)` alternation under `re.IGNORECASE`: any two-character
case variant of `am`/`pm`; the matched text is captured as-is. -/
def ampmAt (l : List Char) : Option (List Char × List Char) :=
  if Py.isPrefixCi "am".toList l ∨ Py.isPrefixCi "pm".toList l then
    some (l.take 2, l.drop 2)
  else none

/-- Attempt of `\b(\d{1,2}):(\d{2})\s*(AM|PM|am|pm)\b` at the head. -/
def timeP1At (prev : Option Char) (l : List Char) : Option (List (List Char)) :=
  if !bdryBeforeWord prev then none
  else
    let (h, a1) := Py.span Py.isDigit l
    if !(1 ≤ h.length ∧ h.length ≤ 2) then none
    else
      match a1 with
      | ':' :: a2 =>
        let (mi, a3) := Py.span Py.isDigit a2
        if mi.length ≠ 2 then none
        else
          let a4 := (Py.span Py.isSpace a3).2
          match ampmAt a4 with
          | some (ap, a5) =>
            if bdryAfterWord a5.head? then some [h, mi, ap] else none
          | none => none
      | _ => none

/-- Attempt of `\b(\d{1,2}):(\d{2})\b` at the head. -/
def timeP2At (prev : Option Char) (l : List Char) : Option (List (List Char)) :=
  if !bdryBeforeWord prev then none
  else
    let (h, a1) := Py.span Py.isDigit l
    if !(1 ≤ h.length ∧ h.length ≤ 2) then none
    else
      match a1 with
      | ':' :: a2 =>
        let (mi, a3) := Py.span Py.isDigit a2
        if mi.length = 2 ∧ bdryAfterWord a3.head? then some [h, mi] else none
      | _ => none

/-- Attempt of `\b(\d{1,2})\s*(AM|PM|am|pm)\b` at the head. -/
def timeP3At (prev : Option Char) (l : List Char) : Option (List (List Char)) :=
  if !bdryBeforeWord prev then none
  else
    let (h, a1) := Py.span Py.isDigit l
    if !(1 ≤ h.length ∧ h.length ≤ 2) then none
    else
      let a2 := (Py.span Py.isSpace a1).2
      match ampmAt a2 with
      | some (ap, a3) => if bdryAfterWord a3.head? then some [h, ap] else none
      | none => none

/-- The `\b(at|@)` opening of time patterns 4 and 5: `at` needs a boundary
before a word character, `@` needs a word character before it. -/
def atSignAt (prev : Option Char) (l : List Char) :
    Option (List Char × List Char) :=
  if Py.isPrefixCi "at".toList l then
    if bdryBeforeWord prev then some (l.take 2, l.drop 2) else none
  else
    match l with
    | '@' :: r =>
      match prev with
      | some p => if Py.isWordChar p then some (['@'], r) else none
      | none => none
    | _ => none

/-- Attempt of `\b(at|@)\s*(\d{1,2}):(\d{2})\s*(AM|PM|am|pm)?\b` at the
head.  When the am/pm group is present but no boundary follows it, or when
it is absent, the trailing `\s*` backtracks to find a boundary (one always
exists right after the minutes when whitespace follows them). -/
def timeP4At (prev : Option Char) (l : List Char) : Option (List (List Char)) :=
  match atSignAt prev l with
  | none => none
  | some (g1, a1) =>
    let a2 := (Py.span Py.isSpace a1).2
    let (h, a3) := Py.span Py.isDigit a2
    if !(1 ≤ h.length ∧ h.length ≤ 2) then none
    else
      match a3 with
      | ':' :: a4 =>
        let (mi, a5) := Py.span Py.isDigit a4
        if mi.length ≠ 2 then none
        else
          let (sp, a6) := Py.span Py.isSpace a5
          match ampmAt a6 with
          | some (ap, a7) =>
            if bdryAfterWord a7.head? then some [g1, h, mi, ap]
            else if !sp.isEmpty then some [g1, h, mi, []]
            else none
          | none =>
            if !sp.isEmpty then some [g1, h, mi, []]
            else if bdryAfterWord a5.head? then some [g1, h, mi, []]
            else none
      | _ => none

/-- Attempt of `\b(at|@)\s*(\d{1,2})\s*(AM|PM|am|pm)\b` at the head. -/
def timeP5At (prev : Option Char) (l : List Char) : Option (List (List Char)) :=
  match atSignAt prev l with
  | none => none
  | some (g1, a1) =>
    let a2 := (Py.span Py.isSpace a1).2
    let (h, a3) := Py.span Py.isDigit a2
    if !(1 ≤ h.length ∧ h.length ≤ 2) then none
    else
      let a4 := (Py.span Py.isSpace a3).2
      match ampmAt a4 with
      | some (ap, a5) => if bdryAfterWord a5.head? then some [g1, h, ap] else none
      | none => none

/-- The alternation group of time pattern 6: an `o`, an optional apostrophe,
then `clock` (IGNORECASE); the matched text is captured. -/
def oclockAt (l : List Char) : Option (List Char × List Char) :=
  match l with
  | c :: r =>
    if Py.eqCi c 'o' then
      match r with
      | q :: r2 =>
        if q = Char.ofNat 39 ∧ Py.isPrefixCi "clock".toList r2 then
          some (l.take 7, l.drop 7)
        else if Py.isPrefixCi "clock".toList r then
          some (l.take 6, l.drop 6)
        else none
      | [] => none
    else none
  | [] => none

/-- Attempt of time pattern 6 at the head: hours, colon, minutes, optional
whitespace, then the o-clock alternation, with word boundaries. -/
def timeP6At (prev : Option Char) (l : List Char) : Option (List (List Char)) :=
  if !bdryBeforeWord prev then none
  else
    let (h, a1) := Py.span Py.isDigit l
    if !(1 ≤ h.length ∧ h.length ≤ 2) then none
    else
      match a1 with
      | ':' :: a2 =>
        let (mi, a3) := Py.span Py.isDigit a2
        if mi.length ≠ 2 then none
        else
          let a4 := (Py.span Py.isSpace a3).2
          match oclockAt a4 with
          | some (oc, a5) =>
            if bdryAfterWord a5.head? then some [h, mi, oc] else none
          | none => none
      | _ => none

/-- The branch ladder of `extract_time_from_text` applied to the first match
of one pattern; `none` means the loop moves on to the next pattern. -/
def timeBranch (m : List (List Char)) : Option String :=
  let atG : List Char → Bool := fun g => g = "at".toList ∨ g = ['@']
  let ampmG : List Char → Bool := fun g =>
    Py.upper g = "AM".toList ∨ Py.upper g = "PM".toList
  let conv : Nat → Nat → Option (List Char) → Option String := fun h mi ap =>
    let h2 :=
      match ap with
      | some a =>
        if Py.upper a = "PM".toList ∧ h ≠ 12 then h + 12
        else if Py.upper a = "AM".toList ∧ h = 12 then 0
        else h
      | none => h
    if h2 ≤ 23 ∧ mi ≤ 59 then some (fmtTime h2 mi) else none
  match m with
  | [m0, m1, m2, m3] =>
    if atG m0 ∧ isdigit m1 ∧ isdigit m2 ∧ ampmG m3 then
      conv (Py.digitsToNat m1) (Py.digitsToNat m2) (some m3)
    else none
  | [m0, m1, m2] =>
    if atG m0 ∧ isdigit m1 ∧ ampmG m2 then
      conv (Py.digitsToNat m1) 0 (some m2)
    else if isdigit m0 ∧ isdigit m1 ∧ ampmG m2 then
      conv (Py.digitsToNat m0) (Py.digitsToNat m1) (some m2)
    else none
  | [m0, m1] =>
    if isdigit m0 ∧ ampmG m1 then conv (Py.digitsToNat m0) 0 (some m1)
    else if isdigit m0 ∧ isdigit m1 then
      conv (Py.digitsToNat m0) (Py.digitsToNat m1) none
    else none
  | _ => none

/-- `extract_time_from_text` from `mcp_benign_working/main.py`. -/
def extract_time_from_text (text : String) : Option String :=
  let l := text.toList
  let tryP := fun att =>
    match findWithPrev att none l with
    | some m => timeBranch m
    | none => none
  (tryP timeP1At).orElse fun _ =>
  (tryP timeP2At).orElse fun _ =>
  (tryP timeP3At).orElse fun _ =>
  (tryP timeP4At).orElse fun _ =>
  (tryP timeP5At).orElse fun _ =>
  tryP timeP6At

end MainMod

namespace MainMod

def localChar (c : Char) : Bool :=
  Py.isAlnum c ∨ c = '.' ∨ c = '_' ∨ c = '%' ∨ c = '+' ∨ c = '-'

def domChar (c : Char) : Bool := Py.isAlnum c ∨ c = '.' ∨ c = '-'

/-- Attempt of the e-mail pattern at the head of the list.
`useBdry` selects the `\b`-anchored variant of `extract_email_from_text`
(whose final class `[A-Z|a-z]{2,}` also admits a literal `|`, selected by
`useBar`); the router's summarize branch uses the unanchored variant with a
letters-only final class.  The greedy `[A-Za-z0-9.-]+` backtracks from the
rightmost `.` whose suffix carries a valid top-level part. -/
def emailAt (useBdry useBar : Bool) (prev : Option Char) (l : List Char) :
    Option (List Char) :=
  let tldChar : Char → Bool := fun c => Py.isAlpha c ∨ (useBar ∧ c = '|')
  match l with
  | [] => none
  | c0 :: _ =>
    if !localChar c0 then none
    else if useBdry ∧
        !(if Py.isWordChar c0 then bdryBeforeWord prev
          else (match prev with | some p => Py.isWordChar p | none => false)) then
      none
    else
      let (loc, r1) := Py.span localChar l
      match r1 with
      | '@' :: r2 =>
        let runD := (Py.span domChar r2).1
        let tryT : Nat → List Char → Option Nat := fun j rest =>
          let trun := (Py.span tldChar rest).1
          if useBdry then
            let rec go : Nat → Option Nat
              | 0 => none
              | t + 1 =>
                if t + 1 < 2 then none
                else if h : t < trun.length then
                  if boundaryBetween (trun.get ⟨t, h⟩)
                      ((rest.drop (t + 1)).head?) then some (t + 1)
                  else go t
                else go t
            go trun.length
          else if 2 ≤ trun.length then some trun.length else none
        let rec tryJ : Nat → Option (List Char)
          | 0 => none
          | j + 1 =>
            (if hj : j + 1 < runD.length then
              if runD.get ⟨j + 1, hj⟩ = '.' then
                match tryT (j + 1) (r2.drop (j + 2)) with
                | some t => some (loc ++ '@' :: r2.take (j + 2 + t))
                | none => none
              else none
            else none).orElse fun _ => tryJ j
        if runD.length = 0 then none
        else tryJ (runD.length - 1)
      | _ => none

/-- `extract_email_from_text` from `mcp_benign_working/main.py`:
first match of `\b[A-Za-z0-9._%+-]+@[A-Za-z0-9.-]+\.[A-Z|a-z]{2,}\b`. -/
def extract_email_from_text (text : String) : Option String :=
  (findWithPrev (emailAt true true) none text.toList).map List.asString

/-- First match of the router's unanchored e-mail pattern
`[a-zA-Z0-9._%+-]+@[a-zA-Z0-9.-]+\.[a-zA-Z]{2,}` (summarize branch). -/
def searchEmailPlain (text : String) : Option String :=
  (findWithPrev (emailAt false false) none text.toList).map List.asString

end MainMod

namespace MainMod

/-- A ToolInvocation produced by the router, with typed parameters.  The
source serializes datetimes into the parameter dict as `isoformat() + "Z"`
strings; the embedding keeps the structured value. -/
inductive ToolInv where
  | driveSearch (query : String) : ToolInv
  | googleSearch (query : String) : ToolInv
  | slackSend (channel text : String) : ToolInv
  | mapsGeocode (address : String) : ToolInv
  | calendarCreate (summary : String) (startTime endTime : PyDateTime)
      (description : String) : ToolInv
  | calendarGetEvents (timeMin timeMax : PyDateTime) (maxResults : Nat) : ToolInv
  | gmailSummarize (targetEmail : String) (maxEmails : Nat) : ToolInv
  | gmailSend (recipient subject body : String) : ToolInv
  | wikipediaGetPage (title url : String) : ToolInv
  | webGetContent (url : String) : ToolInv
deriving DecidableEq, Repr

/-- Routing outcome of `process_message`: either the Gmail-read
short-circuit into `process_message_with_tool_chaining`, or the list of
invocations accumulated in `tools_to_use` (whose execution, including the
empty-list Google-search fallback, happens after routing). -/
inductive RouteOutcome where
  | chained (input : String) (maxUrls : Nat) : RouteOutcome
  | invocations (tools : List ToolInv) : RouteOutcome
deriving DecidableEq, Repr

def defaultDriveQuery : String := "document OR pdf OR image"

def quoteChar : Char := Char.ofNat 34

def squoteChar : Char := Char.ofNat 39

def quoteStr : String := quoteChar.toString

/-- The filename-style query extraction of the Drive branch (the
`named`/`called`/`read`/`access` cascade, its cleanup `replace`s, the
common-word removal loop and the too-many-words truncation). -/
def driveNamedQuery (userInput lower : String) : String :=
  let q0 : String :=
    if Py.strIn "file named" lower then
      Py.strStrip ((Py.strSplitOn "file named" lower).getLastD "")
    else if Py.strIn "file called" lower then
      Py.strStrip ((Py.strSplitOn "file called" lower).getLastD "")
    else if Py.strIn "named" lower then
      Py.strStrip ((Py.strSplitOn "named" lower).getLastD "")
    else if Py.strIn "called" lower then
      Py.strStrip ((Py.strSplitOn "called" lower).getLastD "")
    else if Py.strIn "read" lower then
      let parts := Py.strSplitOn "read" lower
      if parts.length > 1 then Py.strStrip (parts.getD 1 "") else defaultDriveQuery
    else if Py.strIn "access" lower then
      if Py.strIn "read" lower then
        let parts := Py.strSplitOn "read" lower
        if parts.length > 1 then Py.strStrip (parts.getD 1 "") else defaultDriveQuery
      else
        let parts := Py.strSplitOn "access" lower
        if parts.length > 1 then Py.strStrip (parts.getD 1 "") else defaultDriveQuery
    else defaultDriveQuery
  let q1 := Py.strStrip (Py.strReplace "url" ""
    (Py.strReplace "and process url" "" (Py.strReplace "and process" ""
    (Py.strReplace "and summarize" "" (Py.strReplace "query:" ""
    (Py.strReplace "in google drive" "" (Py.strReplace "in drive" "" q0)))))))
  let q2 := Py.strReplace ".docs" ".docx" (Py.strReplace ".docs." ".docx" q1)
  let q3 := (Py.stripSet [squoteChar]
    (Py.stripSet [quoteChar] q2.toList)).asString
  let common := ["for", "file", "named", "called", "search", "find", "look",
    "get", "the", "content", "of", "my"]
  let q4 := common.foldl (fun q w => Py.strStrip (Py.strReplace w "" q)) q3
  let words := (Py.splitWs q4.toList).map List.asString
  if words.length > 3 then
    let exts := [".pdf", ".doc", ".docx", ".xlsx", ".pptx", ".txt"]
    match words.find? (fun w =>
        exts.any (fun e => Py.strIn e ((Py.lower w.toList).asString))) with
    | some w => w
    | none =>
      if words.length > 1 then
        (Py.joinWith " " (words.drop (words.length - 2)))
      else words.getLastD q4
  else q4

/-- The Drive-branch query selection of `process_message`. -/
def driveQuery (userInput lower : String) : String :=
  let q :=
    if Py.strIn "search for files" lower then "document OR pdf OR image OR video"
    else if Py.strIn "search" lower ∧ Py.strIn "drive" lower then
      let parts := Py.strSplitOn "search" lower
      if parts.length > 1 then
        let term := Py.strStrip (Py.strReplace "query:" ""
          (Py.strReplace "for" "" (Py.strReplace "drive" ""
          (Py.strReplace "in google drive" "" (parts.getD 1 "")))))
        if term ≠ "" then term else defaultDriveQuery
      else defaultDriveQuery
    else if Py.anyIn ["named", "called", "file named", "file called", "read",
        "access", "open", "view"] lower then
      driveNamedQuery userInput lower
    else
      let q0 := Py.strStrip (Py.strReplace "drive" ""
        (Py.strReplace "search for files in google drive" "" userInput))
      if q0 = "" then defaultDriveQuery else q0
  let q := Py.strStrip q
  if q = "" then defaultDriveQuery else q

/-- The alternative-search invocations appended by the Drive branch for
filename-style queries. -/
def driveAltSearches (lower q : String) : List ToolInv :=
  if Py.anyIn ["named", "called", "file named", "file called"] lower ∨
      Py.strIn "example" ((Py.lower q.toList).asString) then
    (if !(Py.isPrefix quoteStr.toList q.toList) ∧
        !(Py.endsWith quoteStr.toList q.toList) then
      [ToolInv.driveSearch (quoteStr ++ q ++ quoteStr)] else []) ++
    (if Py.strIn "." q then
      [ToolInv.driveSearch ((Py.strSplitOn "." q).getD 0 "")] else []) ++
    (let words := (Py.splitWs q.toList).map List.asString
     if words.length > 1 then
       (words.filter (fun w => w.length > 2)).map ToolInv.driveSearch
     else []) ++
    (([Py.strReplace " " "_" q, Py.strReplace " " "-" q, Py.strReplace " " "" q,
       (Py.upper q.toList).asString, (Py.lower q.toList).asString].filter
       (fun v => v ≠ q)).map ToolInv.driveSearch)
  else []

/-- Attempt of the calendar time pattern `(\d{1,2}):?(\d{2})\s*(am|pm|AM|PM)?`
at the head (searched over the lower-cased input).  The `\d{1,2}` backtracks
from two digits to one; the optional colon is given back when fewer than two
digits follow it. -/
def calTimeAt (l : List Char) : Option (List Char × List Char × List Char) :=
  let (run, a1) := Py.span Py.isDigit l
  if run.isEmpty then none
  else
    let tryLen : Nat → Option (List Char × List Char × List Char) := fun d1 =>
      if run.length < d1 then none
      else
        let afterD1 := l.drop d1
        let withRest : List Char → Option (List Char × List Char × List Char) :=
          fun rest =>
            let (digs, _) := Py.span Py.isDigit rest
            if 2 ≤ digs.length then
              let afterMin := rest.drop 2
              let a2 := (Py.span Py.isSpace afterMin).2
              let ap :=
                if Py.isPrefix "am".toList a2 ∨ Py.isPrefix "pm".toList a2 ∨
                   Py.isPrefix "AM".toList a2 ∨ Py.isPrefix "PM".toList a2 then
                  a2.take 2
                else []
              some (l.take d1, rest.take 2, ap)
            else none
        match afterD1 with
        | ':' :: r2 => (withRest r2).orElse fun _ => none
        | _ => withRest afterD1
    (if 2 ≤ run.length then tryLen 2 else none).orElse fun _ => tryLen 1
  
/-- Leftmost search for `calTimeAt`. -/
def calTimeSearch : List Char → Option (List Char × List Char × List Char)
  | [] => none
  | c :: r =>
    match calTimeAt (c :: r) with
    | some m => some m
    | none => calTimeSearch r

/-- Attempt of `(\d+)\s*(min|minute|minutes)` at the head (the alternation
always matches as `min` first). -/
def calDurAt (l : List Char) : Option (List Char) :=
  let (run, a1) := Py.span Py.isDigit l
  if run.isEmpty then none
  else
    let a2 := (Py.span Py.isSpace a1).2
    if Py.isPrefix "min".toList a2 then some run else none

def calDurSearch : List Char → Option (List Char)
  | [] => none
  | c :: r =>
    match calDurAt (c :: r) with
    | some m => some m
    | none => calDurSearch r

/-- The calendar-create branch of `process_message`: parse an optional
time-of-day and duration from the lower-cased input, extract the event name
after `name it as`/`name it`/`called`, and build the `create_event`
invocation (`now` is `datetime.now()`). -/
def calendarCreateInv (now : PyDateTime) (lower : String) : ToolInv :=
  let startDefault := replaceTime now 15 0
  let startTime :=
    match calTimeSearch lower.toList with
    | some (hs, ms, ap) =>
      let hour0 := Py.digitsToNat hs
      let minute := Py.digitsToNat ms
      let hour :=
        if (Py.lower ap).asString = "pm" ∧ hour0 ≠ 12 then hour0 + 12
        else if (Py.lower ap).asString = "am" ∧ hour0 = 12 then 0
        else hour0
      replaceTime now hour minute
    | none => startDefault
  let durationMinutes :=
    match calDurSearch lower.toList with
    | some ds => Py.digitsToNat ds
    | none => 10
  let endTime := addMinutesI startTime durationMinutes
  let eventName :=
    if Py.strIn "name it as" lower then
      (Py.stripSet [squoteChar] (Py.stripSet [quoteChar]
        (Py.strip ((Py.strSplitOn "name it as" lower).getLastD "").toList))).asString
    else if Py.strIn "name it" lower then
      (Py.stripSet [squoteChar] (Py.stripSet [quoteChar]
        (Py.strip ((Py.strSplitOn "name it" lower).getLastD "").toList))).asString
    else if Py.strIn "called" lower then
      (Py.stripSet [squoteChar] (Py.stripSet [quoteChar]
        (Py.strip ((Py.strSplitOn "called" lower).getLastD "").toList))).asString
    else "Test Event"
  ToolInv.calendarCreate eventName startTime endTime
    ("Event created via MCP integration: " ++ eventName)

/-- The URL-detection invocations of `process_message` (Wikipedia URLs go to
`wikipedia.get_page` with the last path segment as title, everything else to
`web_access.get_content`). -/
def urlInvocations (urlMatches : List String) : List ToolInv :=
  urlMatches.map (fun url =>
    if Py.strIn "wikipedia.org" ((Py.lower url.toList).asString) then
      ToolInv.wikipediaGetPage
        (Py.strReplace "_" " " ((Py.strSplitOn "/" url).getLastD "")) url
    else ToolInv.webGetContent url)

/-- Keyword tables of the router cascade (`process_message`). -/
def driveWords : List String := ["drive", "file", "search", "retrieve"]

def driveExcludeWords : List String := ["web", "internet", "news", "weather"]

def searchWords : List String :=
  ["search", "find", "google", "look up", "what is", "how to", "weather",
   "news", "information about", "tell me about"]

def infoWords : List String :=
  ["capital of", "population of", "temperature", "forecast", "definition of",
   "meaning of", "who is", "where is"]

def slackWords : List String := ["slack", "slack message", "slack channel"]

def mailWords3 : List String := ["gmail", "email", "mail"]

def locationWords : List String := ["location", "map", "address", "where"]

def listFilesWords : List String :=
  ["list files", "show files", "what files", "drive files", "all files"]

def calendarWords : List String :=
  ["calendar", "calender", "events", "schedule", "meeting", "event",
   "appointment"]

def calendarCreateWords : List String :=
  ["create", "add", "new", "make", "set up", "set up an", "setup"]

def gmailWords : List String :=
  ["gmail", "email", "mail", "inbox", "emails", "messages"]

def summarizeWords : List String := ["summarize", "summary", "summarise"]

def sendWords : List String := ["send", "compose", "write", "create"]

def readWords : List String :=
  ["check", "view", "read", "show", "get", "fetch", "list"]

def refWords1 : List String :=
  ["reference", "access", "website", "page", "article"]

def refWords2 : List String := ["wikipedia", "wiki", "site", "url"]

/-- The invocations accumulated by `process_message` before the Gmail block:
Drive / search `elif` chain, then the independent Slack, location,
file-listing and calendar checks. -/
def preGmailTools (now : PyDateTime) (userInput lower : String) : List ToolInv :=
  let driveBlock : List ToolInv :=
    if Py.anyIn driveWords lower ∧ !(Py.anyIn driveExcludeWords lower) then
      let q := driveQuery userInput lower
      ToolInv.driveSearch q :: driveAltSearches lower q
    else if Py.anyIn searchWords lower then [ToolInv.googleSearch userInput]
    else if Py.anyIn infoWords lower then [ToolInv.googleSearch userInput]
    else if Py.strIn "weather" lower ∨ Py.strIn "temperature" lower ∨
        Py.strIn "forecast" lower then
      [ToolInv.googleSearch ("weather " ++ userInput)]
    else []
  let slackBlock : List ToolInv :=
    if Py.anyIn slackWords lower ∧ !(Py.anyIn mailWords3 lower) then
      [ToolInv.slackSend "#general" userInput]
    else []
  let locBlock : List ToolInv :=
    if Py.anyIn locationWords lower then [ToolInv.mapsGeocode userInput] else []
  let listBlock : List ToolInv :=
    if Py.anyIn listFilesWords lower then [ToolInv.driveSearch ""] else []
  let calBlock : List ToolInv :=
    if Py.anyIn calendarWords lower then
      if Py.anyIn calendarCreateWords lower then
        [calendarCreateInv now lower]
      else
        [ToolInv.calendarGetEvents (addDaysI now (-1)) (addDaysI now 1) 20]
    else []
  driveBlock ++ slackBlock ++ locBlock ++ listBlock ++ calBlock

/-- The invocations appended by `process_message` after the Gmail block
(URL detection via the utils extractor, then the reference/website check). -/
def postGmailTools (userInput lower : String) : List ToolInv :=
  let urlMatches := McpUtils.extract_urls_from_text userInput
  urlInvocations urlMatches ++
  (if Py.anyIn refWords1 lower ∧ Py.anyIn refWords2 lower ∧ urlMatches = [] then
    [ToolInv.googleSearch userInput]
  else [])

/-- The routing phase of `process_message`
(`mcp_benign_working/main.py`): ordered keyword cascade over the lower-cased
utterance; the Gmail read (and Gmail default) branches return the
tool-chaining orchestrator's result with `max_urls=5` instead of appending an
invocation. -/
def route (now : PyDateTime) (userInput : String) : RouteOutcome :=
  let lower := (Py.lower userInput.toList).asString
  let pre := preGmailTools now userInput lower
  if Py.anyIn gmailWords lower then
    if Py.anyIn summarizeWords lower then
      let target :=
        match searchEmailPlain userInput with
        | some e => e
        | none => "user@example.com"
      RouteOutcome.invocations
        (pre ++ [ToolInv.gmailSummarize target 10] ++ postGmailTools userInput lower)
    else if Py.anyIn sendWords lower then
      RouteOutcome.invocations
        (pre ++ [ToolInv.gmailSend "example@email.com" "Test Email" userInput] ++
          postGmailTools userInput lower)
    else if Py.anyIn readWords lower then
      RouteOutcome.chained userInput 5
    else
      RouteOutcome.chained userInput 5
  else
    RouteOutcome.invocations (pre ++ postGmailTools userInput lower)

end MainMod

namespace MainMod

/-- Seconds since the epoch of a datetime (for `timedelta` subtraction). -/
def toAbsSeconds (t : PyDateTime) : Int :=
  daysFromCivil t.year t.month t.day * 86400 +
    (t.hour : Int) * 3600 + (t.minute : Int) * 60 + t.second

/-- Datetime from seconds since the epoch. -/
def fromAbsSeconds (z : Int) (tz : Bool) : PyDateTime :=
  let days := z.fdiv 86400
  let rem := (z.emod 86400).toNat
  match civilFromDays days with
  | (y, m, d) =>
    PyDateTime.mk y.toNat m.toNat d.toNat (rem / 3600) (rem % 3600 / 60)
      (rem % 60) tz

/-- `t + timedelta(seconds=delta)` with full renormalization. -/
def addSecondsI (t : PyDateTime) (delta : Int) : PyDateTime :=
  fromAbsSeconds (toAbsSeconds t + delta) t.tzAware

/-- `datetime.strptime(s, '%Y-%m-%d')` for the canonical output of
`extract_date_from_text`. -/
def parseYmd (s : String) : Option (Nat × Nat × Nat) :=
  match Py.splitOn ['-'] s.toList with
  | [ys, ms, ds] =>
    if ys.all Py.isDigit ∧ ms.all Py.isDigit ∧ ds.all Py.isDigit ∧
        !ys.isEmpty ∧ !ms.isEmpty ∧ !ds.isEmpty then
      let y := Py.digitsToNat ys
      let m := Py.digitsToNat ms
      let d := Py.digitsToNat ds
      if isValidDate y m d then some (y, m, d) else none
    else none
  | _ => none

/-- `hour, minute = map(int, extracted_time.split(':'))` for the canonical
`HH:MM` output of `extract_time_from_text`. -/
def parseHm (s : String) : Option (Nat × Nat) :=
  match Py.splitOn [':'] s.toList with
  | [hs, ms] =>
    if hs.all Py.isDigit ∧ ms.all Py.isDigit ∧ !hs.isEmpty ∧ !ms.isEmpty then
      some (Py.digitsToNat hs, Py.digitsToNat ms)
    else none
  | _ => none

/-- The date/time part of the calendar update chain: parse the event's
start (and end, for the original duration, defaulting to one hour), apply
the extracted date and/or time, and render the new start/end; any parse
failure aborts the whole block (the surrounding `try`), leaving no
start/end parameters. -/
def calcDateTimeUpdate (exDate exTime : Option String) (startS endS : String) :
    Option (String × String) :=
  if startS = "" then none
  else
    let fixZ : String → String := fun s =>
      (Py.replace ['Z'] "+00:00".toList s.toList).asString
    match parseIsoDT (if Py.endsWith ['Z'] startS.toList then fixZ startS
        else startS) with
    | none => none
    | some cs0 =>
      let dur : Option Int :=
        if endS ≠ "" then
          match parseIsoDT (if Py.endsWith ['Z'] endS.toList then fixZ endS
              else endS) with
          | none => none
          | some ce => some (toAbsSeconds ce - toAbsSeconds cs0)
        else some 3600
      match dur with
      | none => none
      | some duration =>
        let cs1 :=
          match exDate with
          | some ds =>
            match parseYmd ds with
            | some (y, m, d) =>
              some { cs0 with year := y, month := m, day := d }
            | none => none
          | none => some cs0
        match cs1 with
        | none => none
        | some cs1v =>
          let cs2 :=
            match exTime with
            | some ts =>
              match parseHm ts with
              | some (h, mi) =>
                some { cs1v with hour := h, minute := mi, second := 0 }
              | none => none
            | none => some cs1v
          match cs2 with
          | none => none
          | some cs =>
            let newEnd := addSecondsI cs duration
            if cs.tzAware then some (isoFormat cs, isoFormat newEnd)
            else some (isoFormat cs ++ "Z", isoFormat newEnd ++ "Z")

/-- A fetched calendar event as consumed by the update chain: `start`/`end`
are the `dateTime` strings (empty when absent) and `attendees` the `email`
values of the attendee dicts (empty string for a missing email). -/
structure CalEvent where
  id : String
  summary : String
  description : String
  location : String
  startDT : String
  endDT : String
  attendees : List String
deriving DecidableEq, Repr

/-- The `update_params` dict passed to `calendar.update_event`: each key is
present only when the chain computed that change. -/
structure UpdateParams where
  start_time : Option String
  end_time : Option String
  attendees : Option (List String)
deriving DecidableEq, Repr

/-- `event_text = f"{event_title} {event_description} {event_location}".strip()`. -/
def eventText (ev : CalEvent) : String :=
  Py.strStrip (ev.summary ++ " " ++ ev.description ++ " " ++ ev.location)

def addCueWords : List String := ["add email", "invite", "add attendee", "include"]

def removeCueWords : List String :=
  ["remove email", "uninvite", "remove attendee", "exclude"]

/-- The per-event update decision of the calendar chain in `process_message`
(`calendar.get_events` handling): extract date/time/email from the combined
title+description+location text, compute a date/time change and/or an
attendee-list change, and issue `(event_id, update_params)` only when a
change was computed and the event has an id.  The display-only URL
processing of the same loop issues no updates and is not modelled here. -/
def eventUpdate (now : PyDateTime) (ev : CalEvent) :
    Option (String × UpdateParams) :=
  let exDate := extract_date_from_text now (eventText ev)
  let exTime := extract_time_from_text (eventText ev)
  let exEmail := extract_email_from_text (eventText ev)
  let dtUpd : Option (String × String) :=
    if exDate.isSome ∨ exTime.isSome then
      calcDateTimeUpdate exDate exTime ev.startDT ev.endDT
    else none
  let currentEmails := ev.attendees.filter (fun e => e ≠ "")
  let attUpd : Option (List String) :=
    match exEmail with
    | some em =>
      let descLower := (Py.lower ev.description.toList).asString
      if Py.anyIn addCueWords descLower then
        if !currentEmails.contains em then some (currentEmails ++ [em]) else none
      else if Py.anyIn removeCueWords descLower then
        if currentEmails.contains em then some (currentEmails.erase em) else none
      else none
    | none => none
  if (dtUpd.isSome ∨ attUpd.isSome) ∧ ev.id ≠ "" then
    some (ev.id, ⟨dtUpd.map Prod.fst, dtUpd.map Prod.snd, attUpd⟩)
  else none

/-- The sequence of `calendar.update_event` calls issued by the chain over a
fetched event list. -/
def processCalendarEvents (now : PyDateTime) (events : List CalEvent) :
    List (String × UpdateParams) :=
  events.filterMap (eventUpdate now)

end MainMod

namespace Chain

/-- The payload of a secondary fetch: an opaque success value from the
provider client, an in-band error dict `(error: msg)`, or the initial empty
dict of the image branch. -/
inductive ContentVal where
  | payload (v : String) : ContentVal
  | errVal (msg : String) : ContentVal
  | emptyObj : ContentVal
deriving DecidableEq, Repr

/-- A `ProcessedURLResult` slot as built by `process_urls_safely`
(`mcp_code/utils.py`); wall-clock `processing_time` is not modelled. -/
structure UrlSlot where
  url : String
  domain : String
  contentType : String
  content : ContentVal
  isSafe : Bool
deriving DecidableEq, Repr

/-- An `ImageProcessingResult` (image_processor.py); wall-clock
`processing_time` is not modelled. -/
structure ImgSlot where
  imageUrl : String
  sourceEmail : String
  googleResults : List String
  webContent : ContentVal
  isSafe : Bool
deriving DecidableEq, Repr

/-- A Gmail list entry (only `id` is consumed by the chain; the snippet is
carried for fidelity). -/
structure GmailMsg where
  id : String
  snippet : String
deriving DecidableEq, Repr

/-- A `gmail.get_message_content` result (the fields beyond `body` are not
consumed by the chaining path modelled here). -/
structure MsgContent where
  body : String
deriving DecidableEq, Repr

/-- The provider clients seen through `mcp_client.call_tool`, as a pure
oracle; `Except.error` models a raised exception. -/
structure Oracle where
  getMessages : Except String (List GmailMsg)
  getMessageContent : String → Except String MsgContent
  wikiGetPage : String → String → Except String String
  webGetContent : String → Except String String
  googleSearch : String → Except String (List String)

/-- The body of the `process_urls_safely` loop for one URL
(`mcp_code/utils.py`): sanitize, dispatch to the Wikipedia or generic web
client by domain, and turn a raised exception into an error slot carrying
the original URL; a URL whose sanitized form is empty is skipped. -/
def processOneUrl (o : Oracle) (url : String) : Option UrlSlot :=
  let sanitized := McpUtils.sanitize_url url
  if sanitized = "" then none
  else
    let domain := (Py.lower (McpUtils.netlocOf sanitized.toList)).asString
    if Py.strIn "wikipedia.org" domain then
      let pathParts := Py.splitOn ['/']
        (Py.stripSet ['/'] (McpUtils.pathOf sanitized.toList))
      if 2 ≤ pathParts.length ∧ pathParts.getD 0 [] = "wiki".toList then
        let title := (Py.replace ['_'] [' '] (pathParts.getD 1 [])).asString
        match o.wikiGetPage title sanitized with
        | Except.ok v =>
          some ⟨sanitized, domain, "wikipedia", ContentVal.payload v, true⟩
        | Except.error e =>
          some ⟨url, "unknown", "error", ContentVal.errVal e, false⟩
      else
        some ⟨sanitized, domain, "error",
          ContentVal.errVal "Invalid Wikipedia URL format", true⟩
    else
      match o.webGetContent sanitized with
      | Except.ok v =>
        some ⟨sanitized, domain, "web_content", ContentVal.payload v, true⟩
      | Except.error e =>
        some ⟨url, "unknown", "error", ContentVal.errVal e, false⟩

/-- The secondary fetch that `process_urls_safely` performs for a sanitized
URL, when it performs one (`none` for the in-band invalid-Wikipedia case). -/
def urlFetchAttempt (o : Oracle) (sanitized : String) :
    Option (Except String String) :=
  let domain := (Py.lower (McpUtils.netlocOf sanitized.toList)).asString
  if Py.strIn "wikipedia.org" domain then
    let pathParts := Py.splitOn ['/']
      (Py.stripSet ['/'] (McpUtils.pathOf sanitized.toList))
    if 2 ≤ pathParts.length ∧ pathParts.getD 0 [] = "wiki".toList then
      some (o.wikiGetPage
        ((Py.replace ['_'] [' '] (pathParts.getD 1 [])).asString) sanitized)
    else none
  else some (o.webGetContent sanitized)

/-- `process_urls_safely` from `mcp_code/utils.py`. -/
def process_urls_safely (o : Oracle) (urls : List String)
    (maxUrls : Nat := 3) : List UrlSlot :=
  (urls.take maxUrls).filterMap (processOneUrl o)

/-- `process_image_with_google_search` from image_processor.py: Google
search on `image analysis <url>`, then a web fetch of the image URL when it
mentions `http` (its failure recorded in-band); a raised Google-search
exception produces the unsafe failure result. -/
def processImage (o : Oracle) (imageUrl sourceEmail : String) : ImgSlot :=
  match o.googleSearch ("image analysis " ++ imageUrl) with
  | Except.ok results =>
    let webContent : ContentVal :=
      if Py.strIn "http" imageUrl then
        match o.webGetContent imageUrl with
        | Except.ok v => ContentVal.payload v
        | Except.error _ =>
          ContentVal.errVal "Could not fetch web content from image URL"
      else ContentVal.emptyObj
    ⟨imageUrl, sourceEmail, results, webContent, true⟩
  | Except.error e => ⟨imageUrl, sourceEmail, [], ContentVal.errVal e, false⟩

/-- The `(urls, images, total_urls, total_images)` record returned by
`_extractAnd_access_urls_from_emails`. -/
structure ExtractOut where
  urls : List UrlSlot
  images : List ImgSlot
  totalUrls : Nat
  totalImages : Nat
deriving DecidableEq, Repr

/-- `_extractAnd_access_urls_from_emails` (`mcp_benign_working/main.py`):
per message take the body (or, when empty, the snippet), extract URLs with
the utils extractor and images with the image-processor extractor, dedup
preserving order, then fetch the first `max_urls` URLs and images.  The
messages are given as (body, snippet) pairs. -/
def extractAndAccessUrlsFromEmails (o : Oracle)
    (messages : List (String × String)) (maxUrls : Nat := 3) : ExtractOut :=
  let bodies := messages.map (fun m => if m.1 ≠ "" then m.1 else m.2)
  let allUrls := (bodies.map McpUtils.extract_urls_from_text).flatten
  let allImages := (bodies.map ImageProc.extract_images_from_text).flatten
  let uniqueUrls := Py.dedup allUrls
  let uniqueImages := Py.dedup allImages
  let urlResults :=
    if uniqueUrls ≠ [] then process_urls_safely o uniqueUrls maxUrls else []
  let imageResults :=
    if uniqueImages ≠ [] then
      (uniqueImages.take maxUrls).map (fun img => processImage o img "gmail")
    else []
  ⟨urlResults, imageResults, uniqueUrls.length, uniqueImages.length⟩

/-- A `tool_results` entry (payload and rendering are not needed by the
claims over this path). -/
structure ToolRes where
  tool : String
  success : Bool
deriving DecidableEq, Repr

/-- Outcome of `process_message_with_tool_chaining`: the accumulated
`tool_results` / `processed_urls` state (response rendering omitted), or
delegation to `process_message` for non-Gmail non-URL inputs. -/
inductive ChainOutcome where
  | state (toolResults : List ToolRes) (processedUrls : Option ExtractOut) :
      ChainOutcome
  | delegated (input : String) : ChainOutcome
deriving DecidableEq, Repr

/-- `re.search(r'[a-f0-9]{16,}', s)`: first maximal run of lowercase hex
of length at least 16. -/
def hexIdSearch (l : List Char) : Option (List Char) :=
  let hexChar : Char → Bool := fun c => Py.isDigit c ∨ ('a' ≤ c ∧ c ≤ 'f')
  let rec go (fuel : Nat) (l : List Char) : Option (List Char) :=
    match fuel with
    | 0 => none
    | fuel + 1 =>
      match l with
      | [] => none
      | c :: r =>
        if hexChar c then
          let (run, rest) := Py.span hexChar (c :: r)
          if 16 ≤ run.length then some run else go fuel rest
        else go fuel r
  go (l.length + 1) l

/-- `process_message_with_tool_chaining` from `mcp_benign_working/main.py`.
In the Gmail read branch the chain retrieves the message list and then the
full content of only the first message (`gmail_result["messages"][0]`),
feeding that single body into `_extractAnd_access_urls_from_emails`; a
content-fetch failure leaves `processed_urls` empty without failing the
call. -/
def process_message_with_tool_chaining (o : Oracle) (userInput : String)
    (maxUrls : Nat := 3) (enableToolChaining : Bool := true) : ChainOutcome :=
  let lower := (Py.lower userInput.toList).asString
  if Py.anyIn MainMod.gmailWords lower then
    if Py.strIn "get_messages" lower ∨ Py.strIn "check" lower ∨
        Py.strIn "read" lower then
      match o.getMessages with
      | Except.ok msgs =>
        let pu : Option ExtractOut :=
          if enableToolChaining ∧ msgs ≠ [] then
            match msgs with
            | [] => none
            | m :: _ =>
              match o.getMessageContent m.id with
              | Except.ok content =>
                if content.body ≠ "" then
                  some (extractAndAccessUrlsFromEmails o
                    [(content.body, "")] maxUrls)
                else none
              | Except.error _ => none
          else none
        ChainOutcome.state [⟨"gmail.get_messages", true⟩] pu
      | Except.error _ =>
        ChainOutcome.state [⟨"gmail.get_messages", false⟩] none
    else if Py.strIn "get_message_content" lower ∨
        Py.strIn "read message" lower then
      match hexIdSearch userInput.toList with
      | some mid =>
        match o.getMessageContent mid.asString with
        | Except.ok content =>
          let pu :=
            if enableToolChaining ∧ content.body ≠ "" then
              some (extractAndAccessUrlsFromEmails o [(content.body, "")]
                maxUrls)
            else none
          ChainOutcome.state [⟨"gmail.get_message_content", true⟩] pu
        | Except.error _ =>
          ChainOutcome.state [⟨"gmail.get_message_content", false⟩] none
      | none => ChainOutcome.state [⟨"gmail.get_message_content", false⟩] none
    else ChainOutcome.state [] none
  else if Py.strIn "http" userInput then
    let urls := McpUtils.extract_urls_from_text userInput
    if urls ≠ [] then
      ChainOutcome.state []
        (some (extractAndAccessUrlsFromEmails o [(userInput, "")] maxUrls))
    else ChainOutcome.state [] none
  else ChainOutcome.delegated userInput

end Chain

/-- The concrete `datetime.now()` used by the router counterexamples. -/
def c3Now : MainMod.PyDateTime := ⟨2026, 10, 12, 9, 7, 3, false⟩

def c3Utterance : String :=
  "Create a calendar event today at 3:30pm for 15 minutes called Standup"

def c8Now : MainMod.PyDateTime := ⟨2026, 10, 12, 10, 0, 0, false⟩

def c4Now : MainMod.PyDateTime := ⟨2026, 10, 12, 9, 0, 0, false⟩

def c4WitnessEvent : MainMod.CalEvent :=
  ⟨"ev1", "Meeting", "add email alice@example.com", "", "", "", ["bob@x.com"]⟩

def c4AlreadyEvent : MainMod.CalEvent :=
  ⟨"ev2", "Meeting", "add email alice@example.com", "", "", "",
    ["alice@example.com"]⟩

def c9Oracle : Chain.Oracle :=
  { getMessages := Except.ok []
    getMessageContent := fun _ => Except.error "unavailable"
    wikiGetPage := fun _ _ => Except.ok "wiki"
    webGetContent := fun url =>
      if url = "https://b.org/2" then Except.error "boom" else Except.ok "ok"
    googleSearch := fun _ => Except.ok [] }

def c2Msg3Body : String :=
  "See https://en.wikipedia.org/wiki/Cat then https://malware.com/x then https://example.com/photo/cat.png"

/-- The synthetic Gmail scenario of the claim: five messages; message #3's
body carries a safe URL, a blocklisted URL and an image URL; the other
bodies carry none.  All provider fetches succeed. -/
def c2Oracle : Chain.Oracle :=
  { getMessages := Except.ok
      [⟨"m1", "s1"⟩, ⟨"m2", "s2"⟩, ⟨"m3", "s3"⟩, ⟨"m4", "s4"⟩, ⟨"m5", "s5"⟩]
    getMessageContent := fun mid =>
      if mid = "m3" then Except.ok ⟨c2Msg3Body⟩
      else if mid = "m1" then
        Except.ok ⟨"Hello team, the meeting notes are attached."⟩
      else Except.ok ⟨"Nothing here."⟩
    wikiGetPage := fun _ _ => Except.ok "wiki-content"
    webGetContent := fun _ => Except.ok "web-content"
    googleSearch := fun _ => Except.ok ["result"] }


namespace Py

theorem isPrefix_append_self (p r : List Char) : isPrefix p (p ++ r) = true := by
  induction p with
  | nil => rfl
  | cons a ps ih => simp [isPrefix, ih]

theorem isPrefix_eq_true_iff (p : List Char) : ∀ l : List Char,
    isPrefix p l = true ↔ ∃ r, l = p ++ r := by
  induction p with
  | nil =>
    intro l
    constructor
    · intro _; exact ⟨l, rfl⟩
    · intro _; rfl
  | cons a ps ih =>
    intro l
    cases l with
    | nil =>
      constructor
      · intro h; cases h
      · rintro ⟨r, hr⟩; cases hr
    | cons c cs =>
      constructor
      · intro h
        have h2 := h
        simp only [isPrefix, Bool.and_eq_true, decide_eq_true_eq] at h2
        obtain ⟨r, hr⟩ := (ih cs).mp h2.2
        exact ⟨r, by simp [h2.1.symm, hr]⟩
      · rintro ⟨r, hr⟩
        cases hr
        simp only [isPrefix, Bool.and_eq_true, decide_eq_true_eq]
        exact ⟨trivial, (ih (ps ++ r)).mpr ⟨r, rfl⟩⟩

theorem dropWhile_dropWhile (p : Char → Bool) (l : List Char) :
    List.dropWhile p (List.dropWhile p l) = List.dropWhile p l := by
  have h := List.head?_dropWhile_not p l
  match hd : List.dropWhile p l with
  | [] => rfl
  | c :: r =>
    rw [hd] at h
    simp only [List.head?_cons] at h
    rw [List.dropWhile_cons, if_neg (by simp [h])]

theorem dropTrailing_idem (p : Char → Bool) (l : List Char) :
    dropTrailing p (dropTrailing p l) = dropTrailing p l := by
  unfold dropTrailing
  rw [List.reverse_reverse, dropWhile_dropWhile]

theorem dropTrailing_append (p : Char → Bool) (l1 l2 : List Char)
    (hall : l1.all (fun c => !p c) = true) (hne : l1 ≠ []) :
    dropTrailing p (l1 ++ l2) = l1 ++ dropTrailing p l2 := by
  unfold dropTrailing
  rw [List.reverse_append, List.dropWhile_append]
  have hrev : l1.reverse.all (fun c => !p c) = true := by
    rw [List.all_reverse]; exact hall
  have hdw : List.dropWhile p l1.reverse = l1.reverse := by
    cases hr : l1.reverse with
    | nil => rfl
    | cons c r =>
      rw [hr] at hrev
      simp only [List.all_cons, Bool.and_eq_true, Bool.not_eq_true'] at hrev
      rw [List.dropWhile_cons, if_neg (by simp [hrev.1])]
  by_cases hemp : (List.dropWhile p l2.reverse).isEmpty = true
  · rw [if_pos hemp, hdw, List.reverse_reverse]
    have h0 : List.dropWhile p l2.reverse = [] := by
      simpa [List.isEmpty_iff] using hemp
    rw [h0]
    simp
  · rw [if_neg hemp, List.reverse_append, List.reverse_reverse]

theorem strip_of_prefix_free (l1 l2 : List Char)
    (hall : l1.all (fun c => !isSpace c) = true) (hne : l1 ≠ []) :
    strip (l1 ++ l2) = l1 ++ dropTrailing isSpace l2 := by
  unfold strip dropLeading
  have hdw : List.dropWhile isSpace (l1 ++ l2) = l1 ++ l2 := by
    cases l1 with
    | nil => exact absurd rfl hne
    | cons c r =>
      simp only [List.all_cons, Bool.and_eq_true, Bool.not_eq_true'] at hall
      rw [List.cons_append, List.dropWhile_cons, if_neg (by simp [hall.1])]
  rw [hdw]
  exact dropTrailing_append isSpace l1 l2 hall hne

theorem removeAllCi_eq_self (pat : List Char) : ∀ (fuel : Nat) (l : List Char),
    containsSubCi pat l = false → removeAllCi pat fuel l = l := by
  intro fuel
  induction fuel with
  | zero => intro l _; rfl
  | succ n ih =>
    intro l hc
    cases l with
    | nil => rfl
    | cons c r =>
      simp only [containsSubCi, Bool.or_eq_false_iff] at hc
      have hstep : removeAllCi pat (n + 1) (c :: r) =
          if (isPrefixCi pat (c :: r) && !pat.isEmpty) = true
          then removeAllCi pat n (List.drop pat.length (c :: r))
          else c :: removeAllCi pat n r := rfl
      rw [hstep, if_neg (by simp [hc.1]), ih r hc.2]

end Py

namespace McpUtils

theorem removeScriptTags_eq_self : ∀ (fuel : Nat) (l : List Char),
    Py.containsSubCi "<script".toList l = false → removeScriptTags fuel l = l := by
  intro fuel
  induction fuel with
  | zero => intro l _; rfl
  | succ n ih =>
    intro l hc
    cases l with
    | nil => rfl
    | cons c r =>
      simp only [Py.containsSubCi, Bool.or_eq_false_iff] at hc
      have hat : scriptTagAt (c :: r) = none := by
        unfold scriptTagAt
        rw [if_neg (by simp only [Bool.not_eq_true]; exact hc.1)]
      have hstep : removeScriptTags (n + 1) (c :: r) =
          match scriptTagAt (c :: r) with
          | some rest => removeScriptTags n rest
          | none => c :: removeScriptTags n r := rfl
      rw [hstep, hat, ih r hc.2]

end McpUtils

namespace Py

/-- Membership in the deduplicated list implies membership in the original. -/
theorem mem_dedup (x : String) (l : List String) (h : x ∈ dedup l) : x ∈ l := by
  unfold dedup at h
  rw [List.mem_reverse] at h
  suffices haux : ∀ (l acc : List String),
      x ∈ l.foldl (fun acc x => if acc.contains x then acc else x :: acc) acc →
      x ∈ acc ∨ x ∈ l by
    rcases haux l [] h with h0 | h1
    · cases h0
    · exact h1
  intro l
  induction l with
  | nil => intro acc h2; exact Or.inl h2
  | cons a t ih =>
    intro acc h2
    rw [List.foldl_cons] at h2
    rcases ih _ h2 with h0 | h1
    · by_cases hc : acc.contains a
      · rw [if_pos hc] at h0; exact Or.inl h0
      · rw [if_neg hc] at h0
        rcases List.mem_cons.mp h0 with rfl | h3
        · exact Or.inr (List.mem_cons_self _ _)
        · exact Or.inl h3
    · exact Or.inr (List.mem_cons_of_mem _ h1)

/-- A case-insensitive prefix has, up to lower-casing, the same text as the
slice of the input it matched. -/
theorem lower_take_of_isPrefixCi : ∀ (p l : List Char),
    isPrefixCi p l = true → lower (l.take p.length) = lower p := by
  intro p
  induction p with
  | nil => intro l _; rfl
  | cons a ps ih =>
    intro l h
    cases l with
    | nil => cases h
    | cons c cs =>
      simp only [isPrefixCi, Bool.and_eq_true, decide_eq_true_eq, eqCi] at h
      have h2 : lower (cs.take ps.length) = lower ps := ih cs h.2
      simp only [lower] at h2
      simp only [List.length_cons, List.take_succ_cons, lower, List.map_cons]
      rw [h.1, h2]

/-- `dropTrailing` is the identity when no character satisfies the predicate. -/
theorem dropTrailing_eq_self (p : Char → Bool) (l : List Char)
    (hall : l.all (fun c => !p c) = true) : dropTrailing p l = l := by
  cases l with
  | nil => rfl
  | cons a t =>
    have h2 := dropTrailing_append p (a :: t) [] hall (by simp)
    rw [show dropTrailing p [] = [] from rfl, List.append_nil] at h2
    exact h2

theorem toList_asString (l : List Char) : l.asString.toList = l := rfl

theorem asString_toList (s : String) : s.toList.asString = s := rfl

end Py

namespace McpUtils

theorem sanitizeSubs_eq_self (l : List Char)
    (h1 : Py.containsSubCi "<script".toList l = false)
    (h2 : Py.containsSubCi "javascript:".toList l = false)
    (h3 : Py.containsSubCi "data:".toList l = false)
    (h4 : Py.containsSubCi "vbscript:".toList l = false) :
    sanitizeSubs l = l := by
  unfold sanitizeSubs
  dsimp only
  rw [removeScriptTags_eq_self _ _ h1]
  rw [Py.removeAllCi_eq_self _ _ _ h2, Py.removeAllCi_eq_self _ _ _ h3,
    Py.removeAllCi_eq_self _ _ _ h4]

theorem sanitize_url_shape (u : String) (hu : u ≠ "") :
    ∃ pfx rest, (pfx = "http://".toList ∨ pfx = "https://".toList) ∧
      (sanitize_url u).toList = pfx ++ Py.dropTrailing Py.isSpace rest := by
  unfold sanitize_url
  rw [if_neg hu]
  dsimp only
  generalize sanitizeSubs u.toList = l4
  by_cases hp : (Py.isPrefix "http://".toList l4 ||
      Py.isPrefix "https://".toList l4) = true
  · rw [if_pos hp]
    rcases Bool.or_eq_true _ _ |>.mp hp with h | h
    · obtain ⟨r, hr⟩ := (Py.isPrefix_eq_true_iff _ _).mp h
      refine ⟨"http://".toList, r, Or.inl rfl, ?_⟩
      rw [hr, Py.strip_of_prefix_free _ _ (by decide) (by decide)]
      exact Py.toList_asString _
    · obtain ⟨r, hr⟩ := (Py.isPrefix_eq_true_iff _ _).mp h
      refine ⟨"https://".toList, r, Or.inr rfl, ?_⟩
      rw [hr, Py.strip_of_prefix_free _ _ (by decide) (by decide)]
      exact Py.toList_asString _
  · rw [if_neg hp]
    refine ⟨"https://".toList, l4, Or.inr rfl, ?_⟩
    rw [Py.strip_of_prefix_free _ _ (by decide) (by decide)]
    exact Py.toList_asString _

theorem sanitize_url_fixed (s : String) (hne : s ≠ "")
    (hsubs : sanitizeSubs s.toList = s.toList)
    (hpre : (Py.isPrefix "http://".toList s.toList ||
      Py.isPrefix "https://".toList s.toList) = true)
    (hstrip : Py.strip s.toList = s.toList) :
    sanitize_url s = s := by
  unfold sanitize_url
  rw [if_neg hne]
  dsimp only
  rw [hsubs, if_pos hpre, hstrip]
  exact Py.asString_toList s

end McpUtils

/-- C1 (counterexample): `extract_urls_from_text` performs no deduplication —
a text containing the same safe URL twice returns it twice, refuting the
claim that the returned list never contains duplicates. -/
theorem extract_urls_duplicates_counterexample :
    McpUtils.extract_urls_from_text
      "https://en.wikipedia.org/wiki/Cat https://en.wikipedia.org/wiki/Cat" =
      ["https://en.wikipedia.org/wiki/Cat", "https://en.wikipedia.org/wiki/Cat"] ∧
    ¬ (McpUtils.extract_urls_from_text
      "https://en.wikipedia.org/wiki/Cat https://en.wikipedia.org/wiki/Cat").Nodup := by
  constructor
  · decide
  · decide

/-- C1 (amended): every URL returned by `extract_urls_from_text` satisfies
`is_safe_url`; the list may however contain duplicates, since the extractor
performs no deduplication. -/
theorem extract_urls_all_safe (t u : String)
    (hu : u ∈ McpUtils.extract_urls_from_text t) :
    McpUtils.is_safe_url u = true := by
  unfold McpUtils.extract_urls_from_text at hu
  by_cases ht : t = ""
  · rw [if_pos ht] at hu
    cases hu
  · rw [if_neg ht] at hu
    have h2 := (List.mem_filter.mp hu).2
    simp only [Bool.and_eq_true, decide_eq_true_eq] at h2
    exact h2.2

/-- C1 (witness): the amended safety theorem applied at a concrete text
whose single extracted URL is the Wikipedia Cat page. -/
theorem extract_urls_all_safe_witness :
    "https://en.wikipedia.org/wiki/Cat" ∈
      McpUtils.extract_urls_from_text "see https://en.wikipedia.org/wiki/Cat now" ∧
    McpUtils.is_safe_url "https://en.wikipedia.org/wiki/Cat" = true :=
  ⟨by decide, extract_urls_all_safe "see https://en.wikipedia.org/wiki/Cat now"
    "https://en.wikipedia.org/wiki/Cat" (by decide)⟩

/-- C5 (counterexample): `sanitize_url` is not idempotent.  On
`"datadata::"` the overlapping `data:` occurrences leave a fresh `data:` in
the first output (`https://data:`), which the second pass removes, giving
`https://`. -/
theorem sanitize_url_not_idempotent_counterexample :
    McpUtils.sanitize_url (McpUtils.sanitize_url "datadata::") ≠
      McpUtils.sanitize_url "datadata::" ∧
    McpUtils.sanitize_url "datadata::" = "https://data:" ∧
    McpUtils.sanitize_url (McpUtils.sanitize_url "datadata::") = "https://" := by
  refine ⟨?_, by decide, by decide⟩
  decide

/-- C5 (amended): `sanitize_url` is idempotent on every input whose
sanitized form contains no further occurrence (case-insensitive) of a
`<script` opening, `javascript:`, `data:` or `vbscript:` — i.e. whenever the
substitutions cannot re-fire on their own output. -/
theorem sanitize_url_idempotent_of_clean (u : String)
    (h1 : Py.containsSubCi "<script".toList
      (McpUtils.sanitize_url u).toList = false)
    (h2 : Py.containsSubCi "javascript:".toList
      (McpUtils.sanitize_url u).toList = false)
    (h3 : Py.containsSubCi "data:".toList
      (McpUtils.sanitize_url u).toList = false)
    (h4 : Py.containsSubCi "vbscript:".toList
      (McpUtils.sanitize_url u).toList = false) :
    McpUtils.sanitize_url (McpUtils.sanitize_url u) =
      McpUtils.sanitize_url u := by
  by_cases hu : u = ""
  · subst hu; rfl
  · obtain ⟨pfx, rest, hpfx, hshape⟩ := McpUtils.sanitize_url_shape u hu
    have hsne : McpUtils.sanitize_url u ≠ "" := by
      intro h0
      rw [h0] at hshape
      cases hpfx with
      | inl h => subst h; simp at hshape
      | inr h => subst h; simp at hshape
    have hpre : (Py.isPrefix "http://".toList (McpUtils.sanitize_url u).toList ||
        Py.isPrefix "https://".toList (McpUtils.sanitize_url u).toList) = true := by
      rw [hshape]
      cases hpfx with
      | inl h =>
        subst h
        exact Bool.or_eq_true _ _ |>.mpr (Or.inl (Py.isPrefix_append_self _ _))
      | inr h =>
        subst h
        exact Bool.or_eq_true _ _ |>.mpr (Or.inr (Py.isPrefix_append_self _ _))
    have hstrip : Py.strip (McpUtils.sanitize_url u).toList =
        (McpUtils.sanitize_url u).toList := by
      rw [hshape]
      cases hpfx with
      | inl h =>
        subst h
        rw [Py.strip_of_prefix_free _ _ (by decide) (by decide),
          Py.dropTrailing_idem]
      | inr h =>
        subst h
        rw [Py.strip_of_prefix_free _ _ (by decide) (by decide),
          Py.dropTrailing_idem]
    exact McpUtils.sanitize_url_fixed _ hsne
      (McpUtils.sanitizeSubs_eq_self _ h1 h2 h3 h4) hpre hstrip

/-- C5 (witness): the idempotence theorem applied at `"example.org/a"`. -/
theorem sanitize_url_idempotent_witness :
    McpUtils.sanitize_url (McpUtils.sanitize_url "example.org/a") =
      McpUtils.sanitize_url "example.org/a" :=
  sanitize_url_idempotent_of_clean "example.org/a"
    (by decide) (by decide) (by decide) (by decide)

/-- C7: the URL safety classifier rejects the blocklisted domain, accepts
the Wikipedia page, and rejects the loopback address. -/
theorem url_safety_classifier_values :
    McpUtils.is_safe_url "https://malware.com/x" = false ∧
    McpUtils.is_safe_url "https://en.wikipedia.org/wiki/Cat" = true ∧
    McpUtils.is_safe_url "https://127.0.0.1/a" = false := by
  refine ⟨by decide, by decide, by decide⟩

namespace ImageProc

/-- Any successful extension-alternation match took one of the alternatives
as a case-insensitive prefix. -/
theorem extAltAt_some (l e r : List Char) (h : extAltAt l = some (e, r)) :
    ∃ a ∈ extAlts, Py.isPrefixCi a.toList l = true ∧ e = l.take a.length := by
  unfold extAltAt at h
  suffices haux : ∀ (xs : List String) (acc : Option (List Char × List Char)),
      xs.foldl (fun acc a =>
        match acc with
        | some r => some r
        | none =>
          if Py.isPrefixCi a.toList l then some (l.take a.length, l.drop a.length)
          else none) acc = some (e, r) →
      acc = some (e, r) ∨ ∃ a ∈ xs, Py.isPrefixCi a.toList l = true ∧ e = l.take a.length by
    rcases haux extAlts none h with h0 | h1
    · cases h0
    · exact h1
  intro xs
  induction xs with
  | nil => intro acc h2; exact Or.inl h2
  | cons a t ih =>
    intro acc h2
    rw [List.foldl_cons] at h2
    rcases ih _ h2 with h0 | h1
    · cases acc with
      | some v => exact Or.inl h0
      | none =>
        dsimp only at h0
        by_cases hp : Py.isPrefixCi a.toList l = true
        · rw [if_pos hp] at h0
          have hpair := Option.some.inj h0
          exact Or.inr ⟨a, List.mem_cons_self _ _, hp, (congrArg Prod.fst hpair).symm⟩
        · rw [if_neg hp] at h0
          exact Option.noConfusion h0
    · obtain ⟨a2, ha2, h3⟩ := h1
      exact Or.inr ⟨a2, List.mem_cons_of_mem _ ha2, h3⟩

/-- Every match produced by the backtracking extension search is a group
tuple whose first group is, up to case, one of the extension alternatives. -/
theorem extTryK_some (oc : Char) (r0 run : List Char) :
    ∀ (k : Nat) (m : ImgMatch) (rest : List Char),
    extTryK oc r0 run k = some (m, rest) →
    ∃ e g2, m = ImgMatch.tup e g2 ∧ ∃ a ∈ extAlts, Py.lower e = Py.lower a.toList := by
  intro k
  induction k with
  | zero =>
    intro m rest h
    exact Option.noConfusion h
  | succ k ih =>
    intro m rest h
    unfold extTryK at h
    by_cases hlt : k + 1 < run.length
    · rw [dif_pos hlt] at h
      by_cases hdot : run.get ⟨k + 1, hlt⟩ = '.'
      · rw [if_pos hdot] at h
        cases halt : extAltAt (run.drop (k + 2)) with
        | none =>
          rw [halt] at h
          exact ih m rest h
        | some pr =>
          obtain ⟨ext, rst⟩ := pr
          rw [halt] at h
          dsimp only at h
          obtain ⟨a, ha, hp, he⟩ := extAltAt_some (run.drop (k + 2)) ext rst halt
          have hm := Option.some.inj h
          refine ⟨ext, _, (congrArg Prod.fst hm).symm, a, ha, ?_⟩
          rw [he]
          have hlow := Py.lower_take_of_isPrefixCi a.toList (run.drop (k + 2)) hp
          rw [show a.length = a.toList.length from rfl]
          exact hlow
      · rw [if_neg hdot] at h
        exact ih m rest h
    · rw [dif_neg hlt] at h
      exact ih m rest h

/-- Every match of an extension-based image pattern is a group tuple whose
first group is, up to case, one of the extension alternatives. -/
theorem extPatternAt_some (oc : Char) (l : List Char) (m : ImgMatch) (rest : List Char)
    (h : extPatternAt oc l = some (m, rest)) :
    ∃ e g2, m = ImgMatch.tup e g2 ∧ ∃ a ∈ extAlts, Py.lower e = Py.lower a.toList := by
  unfold extPatternAt at h
  cases hs : schemeCiAt l with
  | none =>
    rw [hs] at h
    exact Option.noConfusion h
  | some pr =>
    obtain ⟨sch, r0⟩ := pr
    rw [hs] at h
    dsimp only at h
    by_cases hemp : (Py.span imgUrlChar r0).1.isEmpty = true
    · rw [if_pos hemp] at h
      exact Option.noConfusion h
    · rw [if_neg hemp] at h
      exact extTryK_some oc r0 (Py.span imgUrlChar r0).1 _ m rest h

/-- A property of all matches an attempt function can produce holds for every
element of the findall list. -/
theorem findAllImg_mem (att : List Char → Option (ImgMatch × List Char))
    (P : ImgMatch → Prop)
    (hatt : ∀ l m r, att l = some (m, r) → P m) :
    ∀ (fuel : Nat) (l : List Char) (m : ImgMatch), m ∈ findAllImg att fuel l → P m := by
  intro fuel
  induction fuel with
  | zero =>
    intro l m h
    exact absurd h (by simp [findAllImg])
  | succ fuel ih =>
    intro l m h
    cases l with
    | nil => exact absurd h (by simp [findAllImg])
    | cons c r =>
      cases ha : att (c :: r) with
      | some pr =>
        obtain ⟨m2, rest⟩ := pr
        have hred : findAllImg att (fuel + 1) (c :: r) =
            (match att (c :: r) with
             | some (m, rest) => m :: findAllImg att fuel rest
             | none => findAllImg att fuel r) := rfl
        have hst : findAllImg att (fuel + 1) (c :: r) = m2 :: findAllImg att fuel rest := by
          rw [hred, ha]
        rw [hst] at h
        rcases List.mem_cons.mp h with rfl | h2
        · exact hatt _ _ _ ha
        · exact ih rest m h2
      | none =>
        have hred : findAllImg att (fuel + 1) (c :: r) =
            (match att (c :: r) with
             | some (m, rest) => m :: findAllImg att fuel rest
             | none => findAllImg att fuel r) := rfl
        have hst : findAllImg att (fuel + 1) (c :: r) = findAllImg att fuel r := by
          rw [hred, ha]
        rw [hst] at h
        exact ih r m h

end ImageProc

/-- The URL cleaning of `extract_urls_from_text` is the identity on strings
of lower-case letters (up to lower-casing): no stripped punctuation character
is a letter. -/
theorem cleanUrl_lower_alpha (l : List Char)
    (hall : l.all (fun c => Py.isAlphaLower (Py.lowerChar c)) = true) :
    McpUtils.cleanUrl l = l := by
  have hmk : ∀ (S : List Char), (∀ c ∈ S, Py.isAlphaLower (Py.lowerChar c) = false) →
      ∀ (l2 : List Char), l2.all (fun c => Py.isAlphaLower (Py.lowerChar c)) = true →
      Py.rstripSet S l2 = l2 := by
    intro S hS l2 hall2
    unfold Py.rstripSet
    apply Py.dropTrailing_eq_self
    rw [List.all_eq_true]
    intro c hc
    simp only [Bool.not_eq_true']
    cases hb : S.contains c with
    | false => rfl
    | true =>
      have hmem : c ∈ S := by simpa using hb
      have h1 := (List.all_eq_true.mp hall2) c hc
      rw [hS c hmem] at h1
      exact absurd h1 (by simp)
  have h1 : Py.rstripSet ['.', ',', ';', ':', '!', '?'] l = l := hmk _ (by decide) l hall
  have h2 : Py.rstripSet ['\"', Char.ofNat 39] l = l := hmk _ (by decide) l hall
  have h3 : Py.rstripSet [')'] l = l := hmk _ (by decide) l hall
  unfold McpUtils.cleanUrl
  rw [h1, h2, h3]

/-- Case analysis core for the extension-group claim: if the raw captured
group is, up to case, a fixed lower-case alternative, the cleaned output is
that group verbatim, hence an extension string that does not start with
`http`. -/
theorem c10_case (e : List Char) (u a : String)
    (hle : Py.lower e = Py.lower a.toList)
    (hlow : Py.lower a.toList = a.toList)
    (halpha : (a.toList).all Py.isAlphaLower = true)
    (hmem : a ∈ ImageProc.extAlts)
    (hpref : Py.isPrefix "http".toList a.toList = false)
    (hu3 : u = (McpUtils.cleanUrl e).asString) :
    (Py.lower u.toList).asString ∈ ImageProc.extAlts ∧
    Py.isPrefix "http".toList (Py.lower u.toList) = false := by
  have hallE : e.all (fun c => Py.isAlphaLower (Py.lowerChar c)) = true := by
    have hmap : (e.map Py.lowerChar).all Py.isAlphaLower = true := by
      rw [show e.map Py.lowerChar = Py.lower e from rfl, hle, hlow]
      exact halpha
    rw [List.all_map] at hmap
    exact hmap
  have hclean := cleanUrl_lower_alpha e hallE
  rw [hclean] at hu3
  subst hu3
  have ht1 : (List.asString e).toList = e := Py.toList_asString e
  rw [ht1, hle, hlow]
  constructor
  · rw [show (a.toList).asString = a from Py.asString_toList a]
    exact hmem
  · exact hpref

/-- C10: for every text matched only by the extension-based patterns (the
three `/image`, `/img`, `/photo` segment patterns find nothing), every
string returned by `extract_images_from_text` is, lower-cased, one of the
captured extension-alternation strings `jpg`, `jpeg`, `png`, `gif`, `bmp`,
`webp`, `svg`, `ico` — the group-tuple behaviour of `re.findall` keeps only
group 0 — and in particular never starts with `http`, so the full image URL
never appears in the returned list. -/
theorem extract_images_returns_extension_group (text u : String)
    (himage : ImageProc.findAllImg (ImageProc.segPatternAt "/image".toList)
      (text.toList.length + 1) text.toList = [])
    (himg : ImageProc.findAllImg (ImageProc.segPatternAt "/img".toList)
      (text.toList.length + 1) text.toList = [])
    (hphoto : ImageProc.findAllImg (ImageProc.segPatternAt "/photo".toList)
      (text.toList.length + 1) text.toList = [])
    (hu : u ∈ ImageProc.extract_images_from_text text) :
    (Py.lower u.toList).asString ∈ ImageProc.extAlts ∧
    Py.isPrefix "http".toList (Py.lower u.toList) = false := by
  unfold ImageProc.extract_images_from_text at hu
  by_cases ht : text = ""
  · rw [if_pos ht] at hu
    exact absurd hu (List.not_mem_nil u)
  rw [if_neg ht] at hu
  dsimp only at hu
  rw [himage, himg, hphoto] at hu
  have hu2 := Py.mem_dedup u _ hu
  rw [List.mem_filterMap] at hu2
  obtain ⟨m, hm, hf⟩ := hu2
  simp only [List.append_nil, List.nil_append] at hm
  rw [List.mem_append] at hm
  have hprop : ∃ e g2, m = ImageProc.ImgMatch.tup e g2 ∧
      ∃ a ∈ ImageProc.extAlts, Py.lower e = Py.lower a.toList := by
    rcases hm with hm1 | hm2
    · exact ImageProc.findAllImg_mem _ _
        (fun l2 m2 r2 h2 => ImageProc.extPatternAt_some '?' l2 m2 r2 h2) _ _ m hm1
    · exact ImageProc.findAllImg_mem _ _
        (fun l2 m2 r2 h2 => ImageProc.extPatternAt_some '#' l2 m2 r2 h2) _ _ m hm2
  obtain ⟨e, g2, rfl, a, ha, hle⟩ := hprop
  dsimp only at hf
  split at hf
  · have hu3 := (Option.some.inj hf).symm
    have ha2 : a = "jpg" ∨ a = "jpeg" ∨ a = "png" ∨ a = "gif" ∨ a = "bmp" ∨
        a = "webp" ∨ a = "svg" ∨ a = "ico" := by
      simpa [ImageProc.extAlts] using ha
    rcases ha2 with rfl | rfl | rfl | rfl | rfl | rfl | rfl | rfl <;>
      exact c10_case e u _ hle (by decide) (by decide) (by decide) (by decide) hu3
  · exact Option.noConfusion hf

/-- Instance of the extension-group theorem: on `https://example.com/cat.jpg`
the result is exactly `["jpg"]`, the three segment patterns find nothing,
and the returned string is an extension that does not start with `http`. -/
theorem extract_images_returns_extension_group_witness :
    ImageProc.findAllImg (ImageProc.segPatternAt "/image".toList)
      (("https://example.com/cat.jpg" : String).toList.length + 1)
      ("https://example.com/cat.jpg" : String).toList = [] ∧
    ImageProc.findAllImg (ImageProc.segPatternAt "/img".toList)
      (("https://example.com/cat.jpg" : String).toList.length + 1)
      ("https://example.com/cat.jpg" : String).toList = [] ∧
    ImageProc.findAllImg (ImageProc.segPatternAt "/photo".toList)
      (("https://example.com/cat.jpg" : String).toList.length + 1)
      ("https://example.com/cat.jpg" : String).toList = [] ∧
    ImageProc.extract_images_from_text "https://example.com/cat.jpg" = ["jpg"] ∧
    "jpg" ∈ ImageProc.extract_images_from_text "https://example.com/cat.jpg" ∧
    ((Py.lower ("jpg" : String).toList).asString ∈ ImageProc.extAlts ∧
      Py.isPrefix "http".toList (Py.lower ("jpg" : String).toList) = false) :=
  ⟨by decide, by decide, by decide, by decide, by decide,
    extract_images_returns_extension_group "https://example.com/cat.jpg" "jpg"
      (by decide) (by decide) (by decide) (by decide)⟩


/-- C3 (counterexample): on the Standup utterance the router produces a
`calendar.create_event` whose summary is the lower-cased `"standup"`, not
`"Standup"`, because the event name is sliced out of `input_lower`. -/
theorem router_calendar_summary_counterexample :
    MainMod.route c3Now c3Utterance =
      MainMod.RouteOutcome.invocations
        [MainMod.ToolInv.calendarCreate "standup"
          ⟨2026, 10, 12, 15, 30, 0, false⟩ ⟨2026, 10, 12, 15, 45, 0, false⟩
          "Event created via MCP integration: standup"] ∧
    ("standup" : String) ≠ "Standup" := by
  constructor
  · decide
  · decide

/-- C3 (amended): for every `now`, the Standup utterance routes to exactly
one `calendar.create_event` invocation whose start time is 15:30, whose end
time is the model's `timedelta` addition of exactly 15 minutes, and whose
summary is the lower-cased `"standup"`. -/
theorem router_calendar_create_event (now : MainMod.PyDateTime) :
    MainMod.route now c3Utterance =
      MainMod.RouteOutcome.invocations
        [MainMod.ToolInv.calendarCreate "standup"
          (MainMod.replaceTime now 15 30)
          (MainMod.addMinutesI (MainMod.replaceTime now 15 30) 15)
          "Event created via MCP integration: standup"] ∧
    (MainMod.replaceTime now 15 30).hour = 15 ∧
    (MainMod.replaceTime now 15 30).minute = 30 ∧
    MainMod.addMinutesI (MainMod.replaceTime now 15 30) 15 =
      MainMod.replaceTime now 15 45 := by
  have h4 : MainMod.addMinutesI (MainMod.replaceTime now 15 30) 15 =
      MainMod.replaceTime now 15 45 := by
    unfold MainMod.addMinutesI MainMod.replaceTime
    norm_num
    try decide
  refine ⟨?_, rfl, rfl, h4⟩
  have hroute : MainMod.route now c3Utterance =
      MainMod.RouteOutcome.invocations
        (MainMod.preGmailTools now c3Utterance
            ((Py.lower c3Utterance.toList).asString) ++
          MainMod.postGmailTools c3Utterance
            ((Py.lower c3Utterance.toList).asString)) := by
    unfold MainMod.route
    dsimp only
    rw [if_neg (show ¬ Py.anyIn MainMod.gmailWords
      ((Py.lower c3Utterance.toList).asString) = true from by decide)]
  have hpost : MainMod.postGmailTools c3Utterance
      ((Py.lower c3Utterance.toList).asString) = [] := by decide
  have hpre : MainMod.preGmailTools now c3Utterance
      ((Py.lower c3Utterance.toList).asString) =
      [MainMod.calendarCreateInv now ((Py.lower c3Utterance.toList).asString)] := by
    unfold MainMod.preGmailTools
    dsimp only
    rw [if_neg (by decide), if_neg (by decide), if_neg (by decide),
      if_neg (by decide), if_neg (by decide), if_neg (by decide),
      if_neg (by decide), if_pos (by decide), if_pos (by decide)]
    rfl
  have hcal : MainMod.calendarCreateInv now
      ((Py.lower c3Utterance.toList).asString) =
      MainMod.ToolInv.calendarCreate "standup" (MainMod.replaceTime now 15 30)
        (MainMod.addMinutesI (MainMod.replaceTime now 15 30) 15)
        "Event created via MCP integration: standup" := by
    unfold MainMod.calendarCreateInv
    dsimp only
    rw [show MainMod.calTimeSearch
        ((Py.lower c3Utterance.toList).asString).toList =
        some ("3".toList, "30".toList, "pm".toList) from by decide]
    rw [show MainMod.calDurSearch
        ((Py.lower c3Utterance.toList).asString).toList =
        some ("15".toList) from by decide]
    dsimp only
    rw [if_pos (show (Py.lower "pm".toList).asString = "pm" ∧
      Py.digitsToNat "3".toList ≠ 12 from by decide)]
    rw [show Py.strIn "name it as" ((Py.lower c3Utterance.toList).asString)
      = false from by decide]
    rw [show Py.strIn "name it" ((Py.lower c3Utterance.toList).asString)
      = false from by decide]
    rw [show Py.strIn "called" ((Py.lower c3Utterance.toList).asString)
      = true from by decide]
    simp only [Bool.false_eq_true, if_false, if_true]
    rfl
  rw [hroute, hpre, hpost, hcal]
  simp


/-- C8 (counterexample): `"read and summarize my email"` contains an email
keyword and the read keyword `read`, yet the router takes the summarize
branch first: it appends a `gmail.summarize_and_send` invocation and does
not return the chaining orchestrator's result. -/
theorem router_gmail_read_counterexample :
    Py.anyIn MainMod.gmailWords
      ((Py.lower ("read and summarize my email").toList).asString) = true ∧
    Py.anyIn MainMod.readWords
      ((Py.lower ("read and summarize my email").toList).asString) = true ∧
    MainMod.route c8Now "read and summarize my email" =
      MainMod.RouteOutcome.invocations
        [MainMod.ToolInv.gmailSummarize "user@example.com" 10] := by
  refine ⟨by decide, by decide, by decide⟩

/-- C8 (amended): for every utterance containing a Gmail keyword and a
read-style keyword but none of the summarize keywords
(`summarize`/`summary`/`summarise`) and none of the send keywords
(`send`/`compose`/`write`/`create`), the router appends no Gmail invocation
and short-circuits into the chaining orchestrator with `max_urls=5`. -/
theorem router_gmail_read_chains (now : MainMod.PyDateTime) (u : String)
    (hg : Py.anyIn MainMod.gmailWords ((Py.lower u.toList).asString) = true)
    (hr : Py.anyIn MainMod.readWords ((Py.lower u.toList).asString) = true)
    (hsum : Py.anyIn MainMod.summarizeWords
      ((Py.lower u.toList).asString) = false)
    (hsend : Py.anyIn MainMod.sendWords ((Py.lower u.toList).asString) = false) :
    MainMod.route now u = MainMod.RouteOutcome.chained u 5 := by
  unfold MainMod.route
  dsimp only
  rw [if_pos hg, if_neg (by rw [hsum]; exact Bool.false_ne_true),
    if_neg (by rw [hsend]; exact Bool.false_ne_true), if_pos hr]

/-- C8 (witness): the amended theorem at `"check my email"`. -/
theorem router_gmail_read_chains_witness :
    Py.anyIn MainMod.gmailWords
      ((Py.lower ("check my email").toList).asString) = true ∧
    MainMod.route c8Now "check my email" =
      MainMod.RouteOutcome.chained "check my email" 5 :=
  ⟨by decide, router_gmail_read_chains c8Now "check my email"
    (by decide) (by decide) (by decide) (by decide)⟩

/-- C4 (amended): for an event whose description is exactly
`"add email alice@example.com"`, whose combined text yields no extractable
date or time, whose first extractable e-mail is `alice@example.com`, which
is not already an attendee, and which has an id, the chain issues exactly
one update that appends `alice@example.com` to the attendee list and whose
parameters carry no `start_time`/`end_time`.  (If the address is already an
attendee, no update is issued at all — see the counterexample; if another
e-mail occurs earlier in title/location, that one is used instead.) -/
theorem calendar_add_email_frame (now : MainMod.PyDateTime)
    (ev : MainMod.CalEvent)
    (hdesc : ev.description = "add email alice@example.com")
    (hdate : MainMod.extract_date_from_text now (MainMod.eventText ev) = none)
    (htime : MainMod.extract_time_from_text (MainMod.eventText ev) = none)
    (hemail : MainMod.extract_email_from_text (MainMod.eventText ev) =
      some "alice@example.com")
    (hnot : "alice@example.com" ∉ ev.attendees.filter (fun e => e ≠ ""))
    (hid : ev.id ≠ "") :
    MainMod.processCalendarEvents now [ev] =
      [(ev.id, ⟨none, none,
        some (ev.attendees.filter (fun e => e ≠ "") ++
          ["alice@example.com"])⟩)] := by
  have hcontains : (ev.attendees.filter (fun e => e ≠ "")).contains
      "alice@example.com" = false := by
    simpa using hnot
  unfold MainMod.processCalendarEvents
  rw [List.filterMap_cons]
  unfold MainMod.eventUpdate
  dsimp only
  rw [hdate, htime, hemail, hdesc]
  simp only [Option.isSome_none, Bool.or_self, Bool.false_eq_true, if_false,
    hcontains,
    show Py.anyIn MainMod.addCueWords
      ((Py.lower ("add email alice@example.com").toList).asString) = true
      from by decide]
  simp [hid]



/-- C4 (witness): the frame theorem applied to a concrete event with one
existing attendee. -/
theorem calendar_add_email_frame_witness :
    MainMod.processCalendarEvents c4Now [c4WitnessEvent] =
      [(c4WitnessEvent.id, ⟨none, none,
        some (c4WitnessEvent.attendees.filter (fun e => e ≠ "") ++
          ["alice@example.com"])⟩)] :=
  calendar_add_email_frame c4Now c4WitnessEvent rfl (by decide) (by decide)
    (by decide) (by decide) (by decide)


/-- C4 (counterexample): when `alice@example.com` is already an attendee, an
event satisfying all the claim's conditions (description
`"add email alice@example.com"`, no extractable date or time) produces no
`calendar.update_event` call at all, refuting the universally quantified
claim that such events always get an update adding the address. -/
theorem calendar_add_email_counterexample :
    c4AlreadyEvent.description = "add email alice@example.com" ∧
    MainMod.extract_date_from_text c4Now (MainMod.eventText c4AlreadyEvent) =
      none ∧
    MainMod.extract_time_from_text (MainMod.eventText c4AlreadyEvent) = none ∧
    MainMod.extract_email_from_text (MainMod.eventText c4AlreadyEvent) =
      some "alice@example.com" ∧
    MainMod.processCalendarEvents c4Now [c4AlreadyEvent] = [] := by
  refine ⟨rfl, by decide, by decide, by decide, by decide⟩

namespace Chain

/-- When the secondary fetch selected for a URL raises, the loop body of
`process_urls_safely` records the error slot carrying the original URL,
domain `"unknown"`, content type `"error"` and `is_safe = false`. -/
theorem processOneUrl_error (o : Oracle) (u e : String)
    (hs : McpUtils.sanitize_url u ≠ "")
    (hf : urlFetchAttempt o (McpUtils.sanitize_url u) =
      some (Except.error e)) :
    processOneUrl o u =
      some ⟨u, "unknown", "error", ContentVal.errVal e, false⟩ := by
  unfold processOneUrl
  unfold urlFetchAttempt at hf
  dsimp only at hf ⊢
  rw [if_neg hs]
  by_cases hw : Py.strIn "wikipedia.org"
      ((Py.lower (McpUtils.netlocOf
        (McpUtils.sanitize_url u).toList)).asString) = true
  · rw [if_pos hw] at hf ⊢
    by_cases hfmt : 2 ≤ (Py.splitOn ['/'] (Py.stripSet ['/']
        (McpUtils.pathOf (McpUtils.sanitize_url u).toList))).length ∧
        (Py.splitOn ['/'] (Py.stripSet ['/']
          (McpUtils.pathOf (McpUtils.sanitize_url u).toList))).getD 0 [] =
          "wiki".toList
    · rw [if_pos hfmt] at hf ⊢
      have hcall := Option.some.inj hf
      rw [hcall]
    · rw [if_neg hfmt] at hf
      cases hf
  · rw [if_neg hw] at hf ⊢
    have hcall := Option.some.inj hf
    rw [hcall]

end Chain

/-- C9: a single secondary fetch failure is isolated: the failing URL's own
result slot records the error (`content_type = "error"`, the error message,
`is_safe = false`) and the rest of the batch is processed exactly as if the
failure had not happened; the batch itself always yields a result list. -/
theorem process_urls_partial_failure (o : Chain.Oracle)
    (pre post : List String) (u e : String) (n : Nat)
    (hn : (pre ++ u :: post).length ≤ n)
    (hs : McpUtils.sanitize_url u ≠ "")
    (hf : Chain.urlFetchAttempt o (McpUtils.sanitize_url u) =
      some (Except.error e)) :
    Chain.process_urls_safely o (pre ++ u :: post) n =
      pre.filterMap (Chain.processOneUrl o) ++
        (⟨u, "unknown", "error", Chain.ContentVal.errVal e, false⟩ :
          Chain.UrlSlot) :: post.filterMap (Chain.processOneUrl o) := by
  unfold Chain.process_urls_safely
  rw [List.take_of_length_le hn, List.filterMap_append, List.filterMap_cons,
    Chain.processOneUrl_error o u e hs hf]


/-- C9 (witness): the isolation theorem at a three-URL batch whose middle
fetch raises. -/
theorem process_urls_partial_failure_witness :
    Chain.process_urls_safely c9Oracle
      (["https://a.org/1"] ++ "https://b.org/2" :: ["https://c.org/3"]) 3 =
      ["https://a.org/1"].filterMap (Chain.processOneUrl c9Oracle) ++
        (⟨"https://b.org/2", "unknown", "error",
          Chain.ContentVal.errVal "boom", false⟩ : Chain.UrlSlot) ::
        ["https://c.org/3"].filterMap (Chain.processOneUrl c9Oracle) :=
  process_urls_partial_failure c9Oracle ["https://a.org/1"]
    ["https://c.org/3"] "https://b.org/2" "boom" 3 (by decide) (by decide)
    (by rfl)


/-- C2 (counterexample): in the claim's scenario (message #3 holds one safe
URL, one blocked URL and one image URL) the orchestrator with `max_urls=3`
produces zero `ProcessedURLResult`s and zero image results — not one of
each — because it fetches the content of only the first message.  The
second and third conjuncts show message #3's body would have yielded the
safe URL and the image had it been fetched. -/
theorem chain_scenario_counterexample :
    Chain.process_message_with_tool_chaining c2Oracle "check my email" 3 true =
      Chain.ChainOutcome.state [⟨"gmail.get_messages", true⟩]
        (some ⟨[], [], 0, 0⟩) ∧
    McpUtils.extract_urls_from_text c2Msg3Body =
      ["https://en.wikipedia.org/wiki/Cat",
       "https://example.com/photo/cat.png"] ∧
    ImageProc.extract_images_from_text c2Msg3Body =
      ["png", "https://example.com/photo/cat.png"] ∧
    McpUtils.is_safe_url "https://malware.com/x" = false := by
  refine ⟨by decide, by decide, by decide, by decide⟩

/-- C2 (amended): on a Gmail read request with tool chaining enabled, the
orchestrator fetches the full content of only the first listed message:
whenever the list fetch and the first message's content fetch succeed with
a non-empty body, the secondary results are exactly the extraction chain
applied to that single body — the remaining messages' contents are never
requested. -/
theorem chain_reads_only_first_message (o : Chain.Oracle)
    (m : Chain.GmailMsg) (rest : List Chain.GmailMsg)
    (content : Chain.MsgContent) (maxUrls : Nat)
    (hm : o.getMessages = Except.ok (m :: rest))
    (hc : o.getMessageContent m.id = Except.ok content)
    (hb : content.body ≠ "") :
    Chain.process_message_with_tool_chaining o "check my email" maxUrls true =
      Chain.ChainOutcome.state [⟨"gmail.get_messages", true⟩]
        (some (Chain.extractAndAccessUrlsFromEmails o
          [(content.body, "")] maxUrls)) := by
  unfold Chain.process_message_with_tool_chaining
  dsimp only
  rw [if_pos (show Py.anyIn MainMod.gmailWords
    ((Py.lower ("check my email").toList).asString) = true from by decide)]
  rw [if_pos (show Py.strIn "get_messages"
      ((Py.lower ("check my email").toList).asString) = true ∨
    Py.strIn "check" ((Py.lower ("check my email").toList).asString) = true ∨
    Py.strIn "read" ((Py.lower ("check my email").toList).asString) = true
    from by decide)]
  rw [hm]
  dsimp only
  rw [if_pos (show (true : Bool) = true ∧ m :: rest ≠ [] from
    ⟨rfl, by simp⟩)]
  rw [hc]
  dsimp only
  rw [if_pos hb]

/-- C2 (witness): the first-message theorem at the concrete scenario
oracle. -/
theorem chain_reads_only_first_message_witness :
    Chain.process_message_with_tool_chaining c2Oracle "check my email" 3 true =
      Chain.ChainOutcome.state [⟨"gmail.get_messages", true⟩]
        (some (Chain.extractAndAccessUrlsFromEmails c2Oracle
          [("Hello team, the meeting notes are attached.", "")] 3)) :=
  chain_reads_only_first_message c2Oracle ⟨"m1", "s1"⟩
    [⟨"m2", "s2"⟩, ⟨"m3", "s3"⟩, ⟨"m4", "s4"⟩, ⟨"m5", "s5"⟩]
    ⟨"Hello team, the meeting notes are attached."⟩ 3 (by rfl) (by rfl)
    (by decide)
